import Mathlib

/-!
GeBurtstAg: instance pool and triangle pipeline.

A shallow embedding of `source/model.c` (the `ModelInstance` object pool) and of
`source/draw.c` (culling, rejection, depth sort) together with the properties
proved about them.

Conventions of the embedding:

* C `int` / `FIXED` values are `Int`; where 32-bit wrap-around is observable the
  operation is passed through `wrap32`.
* A pointer into `pool->instances` is the index of the slot (`Nat`); a pointer
  that may be `NULL` is an `Option`.
* `assertion(cond, msg)` is fatal: a failing assertion is `Except.error msg`.
  The pool pointer itself is passed by value, so `pool != NULL` always holds.
* A read or write through a pointer outside the buffer is undefined behaviour in
  C; `modelInstanceAdd` and `modelInstanceRemove` report it as `Except.error`
  with the message `outOfBuffer`, and the loop of `modelInstancePoolReset`, which
  has no way to fail, leaves the buffer as it is for such an index.
-/

namespace GeBurtstAg

/-! ## Data model (declarations of `model.h`, as used by the sources) -/

/-- Fixed-point scalar (`FIXED`, a 32-bit signed integer with 8 fractional bits). -/
abbrev FIXED := Int

/-- Angle-precision fixed-point scalar. -/
abbrev ANGLE_FIXED_12 := Int

/-- 15-bit colour stored in an unsigned 16-bit integer. -/
abbrev COLOR := Nat

/-- Three fixed-point scalars. -/
structure Vec3 where
  x : FIXED
  y : FIXED
  z : FIXED
deriving DecidableEq, Repr

/-- Face kind tag; only triangles exist. -/
inductive FaceType where
  | TriangleFace
deriving DecidableEq, Repr

/-- Shading mode of an instance. -/
inductive PolygonShadingType where
  | SHADING_FLAT_LIGHTING
  | SHADING_WIREFRAME
deriving DecidableEq, Repr

/-- One face: `vertexIndex[3]`, `color`, `normal`, `type`. -/
structure Face where
  vertexIndex0 : Nat
  vertexIndex1 : Nat
  vertexIndex2 : Nat
  color : COLOR
  normal : Vec3
  type : FaceType
deriving DecidableEq, Repr

/-- Shared geometry: vertex and face arrays plus their counts. -/
structure Model where
  faces : List Face
  verts : List Vec3
  numVerts : Int
  numFaces : Int
deriving DecidableEq, Repr

/-- One pool slot: the `isEmpty` flag and the members of `state`
    (`mod`, `pos`, `yaw`, `pitch`, `roll`, `scale`, `shading`, `__next`). -/
structure ModelInstance where
  isEmpty : Bool
  mod : Model
  pos : Vec3
  yaw : ANGLE_FIXED_12
  pitch : ANGLE_FIXED_12
  roll : ANGLE_FIXED_12
  scale : FIXED
  shading : PolygonShadingType
  __next : Option Nat
deriving DecidableEq, Repr

/-- The object pool: capacity, slot buffer, head of the free list, live count. -/
structure ModelInstancePool where
  POOL_CAPACITY : Int
  instances : List ModelInstance
  firstAvailable : Option Nat
  instanceCount : Int
deriving DecidableEq, Repr

/-- Message used when a slot pointer leaves the buffer (undefined behaviour in C). -/
def outOfBuffer : String := "pointer outside the instance buffer"

/-! ## `model.c`: the instance pool -/

/-- Write through `pool->instances[i]`: replaces slot `i` by `f` of its old value
    (no effect when `i` is outside the buffer). -/
def writeSlot (insts : List ModelInstance) (i : Nat) (f : ModelInstance → ModelInstance) :
    List ModelInstance :=
  match insts[i]? with
  | some s => insts.set i (f s)
  | none => insts

/-- Body of the loop of `modelInstancePoolReset` for index `i`. -/
def resetSlot (cap : Int) (i : Nat) (s : ModelInstance) : ModelInstance :=
  { s with isEmpty := true, __next := if (i : Int) + 1 < cap then some (i + 1) else none }

/-- `modelInstancePoolReset`: the loop over `i = 0 .. POOL_CAPACITY-1`, then
    `firstAvailable = pool->instances`.  `instanceCount` is not assigned. -/
def modelInstancePoolReset (pool : ModelInstancePool) : ModelInstancePool :=
  { pool with
    instances := (List.range pool.POOL_CAPACITY.toNat).foldl
      (fun insts i => writeSlot insts i (resetSlot pool.POOL_CAPACITY i)) pool.instances
    firstAvailable := some 0 }

/-- `modelInstancePoolNew`: the initialiser followed by a reset. -/
def modelInstancePoolNew (buffer : List ModelInstance) (bufferCapacity : Int) :
    ModelInstancePool :=
  modelInstancePoolReset
    { POOL_CAPACITY := bufferCapacity, instances := buffer, firstAvailable := none,
      instanceCount := 0 }

/-- `modelInstanceAdd`: returns the updated pool and the slot handed out. -/
def modelInstanceAdd (pool : ModelInstancePool) (model : Model) (pos : Option Vec3)
    (scale : FIXED) (yaw pitch roll : ANGLE_FIXED_12) (shading : PolygonShadingType) :
    Except String (ModelInstancePool × Nat) :=
  match pool.firstAvailable with
  | none => .error "model.c: modelInstanceAdd: pool capacity not exceeded (by pointer)"
  | some new =>
    if ¬ (pool.instanceCount < pool.POOL_CAPACITY) then
      .error "model.c: modelInstancePoolAdd: pool capacity not exceeded (by count)"
    else
      match pool.instances[new]? with
      | none => .error outOfBuffer
      | some slot =>
        if ¬ (slot.isEmpty = true) then
          .error "model.c: modelInstanceAdd: first availabe empty"
        else
          match pos with
          | none => .error "model.c: modelInstancePoolAdd: pos != NULL"
          | some p =>
            .ok ({ pool with
                   firstAvailable := slot.__next
                   instances := pool.instances.set new
                     { isEmpty := false, mod := model, pos := p, yaw := yaw, pitch := pitch,
                       roll := roll, scale := scale, shading := shading,
                       __next := slot.__next }
                   instanceCount := pool.instanceCount + 1 }, new)

/-- `modelInstanceRemove`: returns the updated pool and the new `instanceCount`. -/
def modelInstanceRemove (pool : ModelInstancePool) (inst : Option Nat) :
    Except String (ModelInstancePool × Int) :=
  match inst with
  | none => .error "model.c: modelInstancePoolRemove: instance not NULL"
  | some i =>
    if ¬ (pool.instanceCount > 0) then
      .error "model.c: modelInstancePoolRemove: instance pool not empty"
    else
      match pool.instances[i]? with
      | none => .error outOfBuffer
      | some slot =>
        .ok ({ pool with
               instances := pool.instances.set i
                 { slot with isEmpty := true, __next := pool.firstAvailable }
               firstAvailable := some i
               instanceCount := pool.instanceCount - 1 }, pool.instanceCount - 1)

/-- The arguments of one `modelInstanceAdd` call. -/
structure AddArgs where
  model : Model
  pos : Option Vec3
  scale : FIXED
  yaw : ANGLE_FIXED_12
  pitch : ANGLE_FIXED_12
  roll : ANGLE_FIXED_12
  shading : PolygonShadingType
deriving DecidableEq, Repr

/-- `modelInstanceAdd` applied to a bundle of arguments. -/
def addWith (pool : ModelInstancePool) (a : AddArgs) : Except String (ModelInstancePool × Nat) :=
  modelInstanceAdd pool a.model a.pos a.scale a.yaw a.pitch a.roll a.shading

/-- Consecutive `modelInstanceAdd` calls; collects the returned slots in call order. -/
def addMany : ModelInstancePool → List AddArgs → Except String (ModelInstancePool × List Nat)
  | pool, [] => .ok (pool, [])
  | pool, a :: as =>
    match addWith pool a with
    | .error e => .error e
    | .ok (pool1, s) =>
      match addMany pool1 as with
      | .error e => .error e
      | .ok (pool2, ss) => .ok (pool2, s :: ss)

/-- Consecutive `modelInstanceRemove` calls on the given slots, in list order. -/
def removeMany : ModelInstancePool → List Nat → Except String ModelInstancePool
  | pool, [] => .ok pool
  | pool, i :: is =>
    match modelInstanceRemove pool (some i) with
    | .error e => .error e
    | .ok (pool1, _) => removeMany pool1 is

/-- One call on a pool. -/
inductive PoolOp where
  | reset
  | add (a : AddArgs)
  | remove (inst : Option Nat)
deriving DecidableEq, Repr

/-- Runs a sequence of calls; stops at the first failing assertion. -/
def runOps : ModelInstancePool → List PoolOp → Except String ModelInstancePool
  | pool, [] => .ok pool
  | pool, .reset :: ops => runOps (modelInstancePoolReset pool) ops
  | pool, .add a :: ops =>
    match addWith pool a with
    | .error e => .error e
    | .ok (pool1, _) => runOps pool1 ops
  | pool, .remove i :: ops =>
    match modelInstanceRemove pool i with
    | .error e => .error e
    | .ok (pool1, _) => runOps pool1 ops

/-- The chain followed from a head pointer through `__next`.  `none` when the
    walk leaves the buffer or takes more steps than `fuel` (with `fuel` the
    number of slots this means the chain revisits a slot). -/
def freeChainAux (insts : List ModelInstance) : Nat → Option Nat → Option (List Nat)
  | _, none => some []
  | 0, some _ => none
  | fuel + 1, some i =>
    match insts[i]? with
    | none => none
    | some s => (freeChainAux insts fuel s.__next).map (fun rest => i :: rest)

/-- The free list of a pool, from `firstAvailable`. -/
def freeChain (pool : ModelInstancePool) : Option (List Nat) :=
  freeChainAux pool.instances pool.instances.length pool.firstAvailable

/-- The pool invariant of the data model, as a decidable check. -/
def poolInvariant (pool : ModelInstancePool) : Bool :=
  decide (pool.instanceCount ≤ pool.POOL_CAPACITY) &&
  match freeChain pool with
  | none => false
  | some chain =>
    decide chain.Nodup &&
    chain.all (fun i => match pool.instances[i]? with
      | some s => s.isEmpty
      | none => false) &&
    decide ((chain.length : Int) = pool.POOL_CAPACITY - pool.instanceCount)

/-- A slot value used to fill test buffers. -/
def blankInstance : ModelInstance :=
  { isEmpty := false, mod := { faces := [], verts := [], numVerts := 0, numFaces := 0 },
    pos := ⟨0, 0, 0⟩, yaw := 0, pitch := 0, roll := 0, scale := 0,
    shading := .SHADING_FLAT_LIGHTING, __next := none }

/-- Arguments used for test calls of `modelInstanceAdd`. -/
def sampleArgs : AddArgs :=
  { model := { faces := [], verts := [], numVerts := 0, numFaces := 0 },
    pos := some ⟨256, 0, -512⟩, scale := 768, yaw := 1, pitch := 2, roll := 3,
    shading := .SHADING_WIREFRAME }

/-! ## Fixed-point helpers of libtonc (`tonc_math.h`, `tonc_video.h`) -/

/-- 32-bit two's-complement wrap-around of an integer result. -/
def wrap32 (v : Int) : Int := (v + 2147483648) % 4294967296 - 2147483648

/-- Unary minus on a 32-bit `int`. -/
def neg32 (v : Int) : Int := wrap32 (-v)

/-- `FIX_SHIFT`: number of fractional bits of `FIXED`. -/
def FIX_SHIFT : Nat := 8

/-- `FIX_SCALE = 1 << FIX_SHIFT`. -/
def FIX_SCALE : Int := 256

/-- `int2fx(d) = d << FIX_SHIFT`. -/
def int2fx (d : Int) : FIXED := wrap32 (d * FIX_SCALE)

/-- `fx2int(fx) = fx / FIX_SCALE` (C division, truncating towards zero). -/
def fx2int (fx : FIXED) : Int := Int.tdiv fx FIX_SCALE

/-- `fxmul(fa, fb) = (fa * fb) >> FIX_SHIFT` (arithmetic shift). -/
def fxmul (fa fb : FIXED) : FIXED := wrap32 (fa * fb) >>> FIX_SHIFT

/-- `RGB15(red, green, blue) = red | (green << 5) | (blue << 10)`, returned as a 16-bit `COLOR`. -/
def RGB15 (red green blue : Nat) : COLOR := (red ||| (green <<< 5) ||| (blue <<< 10)) % 65536

/-- Conversion of an `int` to the unsigned 16-bit type `COLOR`. -/
def toCOLOR (v : Int) : COLOR := (v % 65536).toNat

/-! ## Declarations used by `draw.c` -/

/-- The repository's vector and matrix helpers (`math.h`).  They are not among
    the sources, so the pipeline takes them as a parameter and every general
    statement below holds for whatever they compute. -/
structure MathKernel where
  vecSub : Vec3 → Vec3 → Vec3
  vecCross : Vec3 → Vec3 → Vec3
  vecDot : Vec3 → Vec3 → FIXED
  vecScaled : Vec3 → FIXED → Vec3
  vecTransform : List FIXED → Vec3 → Vec3
  vecTransformed : List FIXED → Vec3 → Vec3
  matrix4x4createYawPitchRoll : ANGLE_FIXED_12 → ANGLE_FIXED_12 → ANGLE_FIXED_12 → List FIXED

/-- The members of `Camera` that `draw.c` reads. -/
structure Camera where
  near : FIXED
  far : FIXED
  canvasWidth : Int
  canvasHeight : Int
  world2cam : List FIXED
  perspMat : List FIXED
deriving DecidableEq, Repr

/-- Integer screen position. -/
structure RasterPoint where
  x : Int
  y : Int
deriving DecidableEq, Repr

/-- Screen-space triangle: `vert[3]`, `color`, `centroidZ`. -/
structure RasterTriangle where
  vert0 : RasterPoint
  vert1 : RasterPoint
  vert2 : RasterPoint
  color : COLOR
  centroidZ : FIXED
deriving DecidableEq, Repr

/-! ## `draw.c`: geometry stage and depth sort -/

/-- Capacity of `screenTriangles`. -/
def DRAW_MAX_TRIANGLES : Nat := 256

/-- `BEHIND_CAM(vert)`: `vert.z > -cam->near`. -/
def BEHIND_CAM (cam : Camera) (vert : Vec3) : Bool := decide (vert.z > neg32 cam.near)

/-- The far-plane test of `drawModelInstances`, operand for operand as written in the source. -/
def farReject (cam : Camera) (t0 t1 _t2 : Vec3) : Bool :=
  decide (t0.z < neg32 cam.far) || decide (t1.z < neg32 cam.far) || decide (t1.z < neg32 cam.far)

/-- The four "all vertices outside one clipping plane" tests on the projected vertices. -/
def offCanvas (cam : Camera) (p0 p1 p2 : Vec3) : Bool :=
  (decide (p0.x < 0) && decide (p1.x < 0) && decide (p2.x < 0)) ||
  (decide (p0.x ≥ cam.canvasWidth) && decide (p1.x ≥ cam.canvasWidth) &&
    decide (p2.x ≥ cam.canvasWidth)) ||
  (decide (p0.y < 0) && decide (p1.y < 0) && decide (p2.y < 0)) ||
  (decide (p0.y ≥ cam.canvasHeight) && decide (p1.y ≥ cam.canvasHeight) &&
    decide (p2.y ≥ cam.canvasHeight))

/-- Conversion of a projected vertex to a `RasterPoint`. -/
def toRasterPoint (p : Vec3) : RasterPoint := { x := fx2int p.x, y := fx2int p.y }

/-- The "Color/lighting" block: the colour given to an emitted triangle. -/
def faceColor (K : MathKernel) (lightDir : Vec3) (instanceRotMat : List FIXED) (face : Face) :
    COLOR :=
  let faceNormal := K.vecTransformed instanceRotMat face.normal
  let lightAlpha := K.vecDot lightDir faceNormal
  if lightAlpha > 0 then
    let shade : COLOR := toCOLOR (fx2int (fxmul lightAlpha (int2fx 31)))
    let shade : COLOR := toCOLOR (max (2 : Int) (shade : Int))
    RGB15 shade shade shade
  else
    RGB15 2 2 2

/-- The triangle stored for a face once it has survived every test. -/
def emittedTriangle (K : MathKernel) (cam : Camera) (lightDir : Vec3)
    (instanceRotMat : List FIXED) (v0 v1 v2 : Vec3) (face : Face) : RasterTriangle :=
  { vert0 := toRasterPoint (K.vecTransform cam.perspMat v0)
    vert1 := toRasterPoint (K.vecTransform cam.perspMat v1)
    vert2 := toRasterPoint (K.vecTransform cam.perspMat v2)
    color := faceColor K lightDir instanceRotMat face
    centroidZ := v0.z }

/-- Body of the face loop of `drawModelInstances`, after the three camera-space
    vertices of the face have been read.  `screenTriangles` is the filled part of
    the buffer (`screenTriangleCount` is its length); a skipped face (`continue`)
    returns it unchanged. -/
def processTri (K : MathKernel) (cam : Camera) (lightDir : Vec3) (instanceRotMat : List FIXED)
    (v0 v1 v2 : Vec3) (face : Face) (screenTriangles : List RasterTriangle) :
    Except String (List RasterTriangle) :=
  let a := K.vecSub v1 v0
  let b := K.vecSub v2 v0
  let triNormal := K.vecCross a b
  let camToTri := v0
  if K.vecDot triNormal camToTri ≤ 0 then .ok screenTriangles
  else if BEHIND_CAM cam v0 || BEHIND_CAM cam v1 || BEHIND_CAM cam v2 then .ok screenTriangles
  else if farReject cam v0 v1 v2 then .ok screenTriangles
  else if ¬ (v0.z ≤ neg32 cam.near ∧ v1.z ≤ neg32 cam.near ∧ v2.z ≤ neg32 cam.near) then
    .error "draw.c: drawModelInstances: Perspective division in front of near-plane"
  else
    let p0 := K.vecTransform cam.perspMat v0
    let p1 := K.vecTransform cam.perspMat v1
    let p2 := K.vecTransform cam.perspMat v2
    if offCanvas cam p0 p1 p2 then .ok screenTriangles
    else if ¬ (screenTriangles.length < DRAW_MAX_TRIANGLES) then
      .error "draw.c: drawModelInstances: screenTriangleCount < DRAW_MAX_TRIANGLES"
    else
      .ok (screenTriangles ++ [emittedTriangle K cam lightDir instanceRotMat v0 v1 v2 face])

/-- One iteration of the face loop: reads `vertsCamSpace[face.vertexIndex[k]]`
    and runs the body. -/
def processFace (K : MathKernel) (cam : Camera) (lightDir : Vec3) (instanceRotMat : List FIXED)
    (vertsCamSpace : List Vec3) (face : Face) (screenTriangles : List RasterTriangle) :
    Except String (List RasterTriangle) :=
  match vertsCamSpace[face.vertexIndex0]?, vertsCamSpace[face.vertexIndex1]?,
      vertsCamSpace[face.vertexIndex2]? with
  | some v0, some v1, some v2 =>
    processTri K cam lightDir instanceRotMat v0 v1 v2 face screenTriangles
  | _, _, _ => .error "vertex index outside vertsCamSpace"

/-- The same face with the winding reversed (vertices 1 and 2 exchanged). -/
def reverseWinding (face : Face) : Face :=
  { face with vertexIndex1 := face.vertexIndex2, vertexIndex2 := face.vertexIndex1 }

/-- Vertex loop body: model space to camera space for one vertex. -/
def toCamSpace (K : MathKernel) (cam : Camera) (instanceRotMat : List FIXED)
    (inst : ModelInstance) (v : Vec3) : Vec3 :=
  let s := K.vecTransform instanceRotMat (K.vecScaled v inst.scale)
  K.vecTransform cam.world2cam
    { x := wrap32 (s.x + inst.pos.x), y := wrap32 (s.y + inst.pos.y),
      z := wrap32 (s.z + inst.pos.z) }

/-- The face loop over `faceNum = 0 .. numFaces-1`. -/
def faceLoop (K : MathKernel) (cam : Camera) (lightDir : Vec3) (instanceRotMat : List FIXED)
    (vertsCamSpace : List Vec3) (faces : List Face) :
    List Nat → List RasterTriangle → Except String (List RasterTriangle)
  | [], buf => .ok buf
  | faceNum :: rest, buf =>
    match faces[faceNum]? with
    | none => .error "face index outside the face array"
    | some face =>
      match processFace K cam lightDir instanceRotMat vertsCamSpace face buf with
      | .error e => .error e
      | .ok buf1 => faceLoop K cam lightDir instanceRotMat vertsCamSpace faces rest buf1

/-- Body of the instance loop of `drawModelInstances`. -/
def processInstance (K : MathKernel) (cam : Camera) (lightDir : Vec3) (inst : ModelInstance)
    (buf : List RasterTriangle) : Except String (List RasterTriangle) :=
  let instanceRotMat := K.matrix4x4createYawPitchRoll inst.yaw inst.pitch inst.roll
  match (List.range inst.mod.numVerts.toNat).mapM (fun i => inst.mod.verts[i]?) with
  | none => .error "vertex index outside the vertex array"
  | some vs =>
    let vertsCamSpace := vs.map (toCamSpace K cam instanceRotMat inst)
    faceLoop K cam lightDir instanceRotMat vertsCamSpace inst.mod.faces
      (List.range inst.mod.numFaces.toNat) buf

/-- The instance loop of `drawModelInstances`, starting from `screenTriangleCount = 0`:
    the triangles emitted for the frame, before sorting. -/
def emitTriangles (K : MathKernel) (cam : Camera) (lightDir : Vec3) :
    List ModelInstance → List RasterTriangle → Except String (List RasterTriangle)
  | [], buf => .ok buf
  | inst :: rest, buf =>
    match processInstance K cam lightDir inst buf with
    | .error e => .error e
    | .ok buf1 => emitTriangles K cam lightDir rest buf1

/-- `triangleDepthCmp`: the `int` difference of the two `centroidZ` values. -/
def triangleDepthCmp (a b : RasterTriangle) : Int := wrap32 (a.centroidZ - b.centroidZ)

/-- Insertion of one element in front of the first element it does not compare greater than. -/
def orderedInsertBy {α : Type} (cmp : α → α → Int) (a : α) : List α → List α
  | [] => [a]
  | b :: l => if cmp a b ≤ 0 then a :: b :: l else b :: orderedInsertBy cmp a l

/-- The C library's `qsort` is external; it is modelled as a comparison sort
    (insertion sort) that consults only the sign of the comparator's result. -/
def qsort {α : Type} (cmp : α → α → Int) : List α → List α
  | [] => []
  | a :: l => orderedInsertBy cmp a (qsort cmp l)

/-- The sort step of `drawModelInstances`. -/
def sortStep (screenTriangles : List RasterTriangle) : List RasterTriangle :=
  qsort triangleDepthCmp screenTriangles

/-- Adjacent pairs of a buffer are in ascending `centroidZ` order. -/
def DepthOrdered (buf : List RasterTriangle) : Prop :=
  ∀ i : Nat, ∀ h : i + 1 < buf.length,
    (buf.get ⟨i, Nat.lt_of_succ_lt h⟩).centroidZ ≤ (buf.get ⟨i + 1, h⟩).centroidZ

/-- Modelled from the spec: the fixed-point math kernel (`math.h`) is not among
    the sources.  The spec describes it as vector and matrix operations on
    fixed-point scalars with row-major 4x4 matrices; this instance uses the
    component-wise definitions with `fxmul`, applies a matrix to `(x, y, z, 1)`
    and leaves out the rotation builder (identity matrix).  It serves to
    evaluate the pipeline on concrete inputs and to state how the cull test
    behaves under fixed-point rounding. -/
def fixedKernel : MathKernel where
  vecSub a b := { x := wrap32 (a.x - b.x), y := wrap32 (a.y - b.y), z := wrap32 (a.z - b.z) }
  vecCross a b :=
    { x := wrap32 (fxmul a.y b.z - fxmul a.z b.y)
      y := wrap32 (fxmul a.z b.x - fxmul a.x b.z)
      z := wrap32 (fxmul a.x b.y - fxmul a.y b.x) }
  vecDot a b := wrap32 (fxmul a.x b.x + fxmul a.y b.y + fxmul a.z b.z)
  vecScaled v s := { x := fxmul v.x s, y := fxmul v.y s, z := fxmul v.z s }
  vecTransform m v :=
    { x := wrap32 (fxmul (m.getD 0 0) v.x + fxmul (m.getD 1 0) v.y + fxmul (m.getD 2 0) v.z
        + m.getD 3 0)
      y := wrap32 (fxmul (m.getD 4 0) v.x + fxmul (m.getD 5 0) v.y + fxmul (m.getD 6 0) v.z
        + m.getD 7 0)
      z := wrap32 (fxmul (m.getD 8 0) v.x + fxmul (m.getD 9 0) v.y + fxmul (m.getD 10 0) v.z
        + m.getD 11 0) }
  vecTransformed m v :=
    { x := wrap32 (fxmul (m.getD 0 0) v.x + fxmul (m.getD 1 0) v.y + fxmul (m.getD 2 0) v.z
        + m.getD 3 0)
      y := wrap32 (fxmul (m.getD 4 0) v.x + fxmul (m.getD 5 0) v.y + fxmul (m.getD 6 0) v.z
        + m.getD 7 0)
      z := wrap32 (fxmul (m.getD 8 0) v.x + fxmul (m.getD 9 0) v.y + fxmul (m.getD 10 0) v.z
        + m.getD 11 0) }
  matrix4x4createYawPitchRoll _ _ _ := [256, 0, 0, 0, 0, 256, 0, 0, 0, 0, 256, 0, 0, 0, 0, 256]

/-- The 4x4 identity matrix in fixed point. -/
def identityMat : List FIXED := [256, 0, 0, 0, 0, 256, 0, 0, 0, 0, 256, 0, 0, 0, 0, 256]

/-- A test camera: near = 1.0, far = 64.0, a 160x128 canvas given in fixed point,
    identity view and projection matrices. -/
def sampleCamera : Camera :=
  { near := 256, far := 16384, canvasWidth := 40960, canvasHeight := 32768,
    world2cam := identityMat, perspMat := identityMat }

/-- A face over vertices 0, 1, 2. -/
def sampleFace : Face :=
  { vertexIndex0 := 0, vertexIndex1 := 1, vertexIndex2 := 2, color := 31,
    normal := ⟨0, 0, 256⟩, type := .TriangleFace }

/-- A light direction for test frames. -/
def sampleLight : Vec3 := ⟨0, 0, 256⟩

/-- Camera-space vertices of a triangle whose third vertex lies beyond the far plane. -/
def farThirdVerts : List Vec3 := [⟨256, 256, -512⟩, ⟨512, 256, -512⟩, ⟨256, 512, -20000⟩]

/-- Camera-space vertices of a triangle seen almost edge-on. -/
def edgeOnVerts : List Vec3 := [⟨448, 1600, -1248⟩, ⟨672, 640, -1088⟩, ⟨1952, 224, -2432⟩]

/-- Camera-space vertices of a triangle just left of the canvas: the projected
    x coordinates are -0.5, -2.0 and -1.0. -/
def leftEdgeVerts : List Vec3 := [⟨-128, 256, -512⟩, ⟨-512, 256, -512⟩, ⟨-256, 512, -512⟩]

/-- Camera-space vertices of a triangle in front of the camera and on the canvas. -/
def visibleVerts : List Vec3 := [⟨256, 256, -512⟩, ⟨256, 512, -512⟩, ⟨512, 256, -512⟩]

/-- Camera-space vertices of a triangle one of whose vertices is nearer than the near plane. -/
def nearVerts : List Vec3 := [⟨256, 256, -512⟩, ⟨256, 512, -512⟩, ⟨512, 256, -128⟩]

/-- Camera-space vertices of a triangle wholly left of the canvas. -/
def leftOfCanvasVerts : List Vec3 := [⟨-512, 256, -512⟩, ⟨-1024, 256, -512⟩, ⟨-768, 512, -512⟩]

/-- A triangle with the given depth value, for sort tests. -/
def depthTri (z : FIXED) : RasterTriangle :=
  { vert0 := ⟨0, 0⟩, vert1 := ⟨1, 0⟩, vert2 := ⟨0, 1⟩, color := 0, centroidZ := z }

/-- The observable part of a pool: head of the free list, live count, and for
    every slot its `isEmpty` flag and `__next` link. -/
def observe (pool : ModelInstancePool) : Option Nat × Int × List (Bool × Option Nat) :=
  (pool.firstAvailable, pool.instanceCount, pool.instances.map (fun s => (s.isEmpty, s.__next)))

/-! ## `draw.c`: the rasterizer

`M5_SCALED_W` and `M5_SCALED_H` are constants of `globals.h`, which is not among
the sources; they are the parameters `W` and `H`.  Screen coordinates are `int`
values obtained with `fx2int`, so their differences are taken exactly; every
fixed-point operation wraps to 32 bits.  A call of `m5_hline` is recorded with
its four arguments, a call of `fxdiv` with its two. -/

/-- `fxdiv(fa, fb) = (fa * FIX_SCALE) / fb` (C division).  Division by zero is
    undefined in C; here it yields 0, and the trace of a fill records every
    divisor. -/
def fxdiv (fa fb : FIXED) : FIXED := wrap32 (Int.tdiv (wrap32 (fa * FIX_SCALE)) fb)

/-- One iteration of a scanline loop: the row and the unclamped boundaries
    `xLeft`, `xRight` at the moment `m5_hline` is called. -/
structure Scanline where
  y : Int
  xLeft : FIXED
  xRight : FIXED
deriving DecidableEq, Repr

/-- One call `m5_hline(x1, y, x2, clr)`. -/
structure HLine where
  x1 : Int
  y : Int
  x2 : Int
  color : COLOR
deriving DecidableEq, Repr

/-- What `drawFillTris` does for one triangle: the scanlines walked, the
    `m5_hline` calls made (one per scanline, in order) and the arguments of the
    `fxdiv` calls executed. -/
structure FillTrace where
  scanlines : List Scanline
  hlines : List HLine
  divs : List (FIXED × FIXED)
deriving DecidableEq, Repr

/-- `MIN(MAX(0, fx2int(x)), M5_SCALED_W - 1)`. -/
def clampX (W : Int) (x : FIXED) : Int := min (max 0 (fx2int x)) (W - 1)

/-- The `m5_hline(left, y, right - 1, color)` call of a scanline. -/
def hlineOf (W : Int) (color : COLOR) (s : Scanline) : HLine :=
  { x1 := clampX W s.xLeft, y := s.y, x2 := clampX W s.xRight - 1, color := color }

/-- The three conditional swaps that order the vertices: `v1` top, `v2` middle, `v3` bottom. -/
def sortVerts (a b c : RasterPoint) : RasterPoint × RasterPoint × RasterPoint :=
  let p := if a.y > b.y then (b, a) else (a, b)
  let q := if p.2.y > c.y then (c, p.2) else (p.2, c)
  let r := if p.1.y > q.1.y then (q.1, p.1) else (p.1, q.1)
  (r.1, r.2, q.2)

/-- `middleLeft = v2.x <= v1.x`. -/
def middleLeft (v1 v2 : RasterPoint) : Bool := decide (v2.x ≤ v1.x)

/-- The loop of the top section: `count` iterations from row `y`; the boundaries
    are advanced before the call.  Returns the scanlines and the final
    `xLeft`, `xRight`. -/
def topLoop (leftDeltaX rightDeltaX : FIXED) :
    Nat → Int → FIXED → FIXED → List Scanline × FIXED × FIXED
  | 0, _, xLeft, xRight => ([], xLeft, xRight)
  | count + 1, y, xLeft, xRight =>
    let xLeft1 := wrap32 (xLeft + leftDeltaX)
    let xRight1 := wrap32 (xRight + rightDeltaX)
    let r := topLoop leftDeltaX rightDeltaX count (y + 1) xLeft1 xRight1
    ({ y := y, xLeft := xLeft1, xRight := xRight1 } :: r.1, r.2.1, r.2.2)

/-- The loop of the bottom section: `count` iterations from row `y`; the
    boundaries are advanced after the call. -/
def bottomLoop (leftDeltaX rightDeltaX : FIXED) :
    Nat → Int → FIXED → FIXED → List Scanline
  | 0, _, _, _ => []
  | count + 1, y, xLeft, xRight =>
    { y := y, xLeft := xLeft, xRight := xRight } ::
      bottomLoop leftDeltaX rightDeltaX count (y + 1) (wrap32 (xLeft + leftDeltaX))
        (wrap32 (xRight + rightDeltaX))

/-- The arguments of the `fxdiv` call that gives `invslopeShort` for the top
    section, with the assertion of the flat-top branch. -/
def topShortDiv (v1 v2 v3 : RasterPoint) : Except String (FIXED × FIXED) :=
  if v2.y - v1.y ≠ 0 then
    .ok (int2fx (v2.x - v1.x), int2fx (v2.y - v1.y))
  else if v3.y - v2.y ≠ 0 then
    .ok (int2fx (v3.x - v2.x), int2fx (v3.y - v2.y))
  else
    .error "draw.c: drawFillTris: v3.y - v2.y != 0"

/-- Body of the loop of `drawFillTris` for one triangle. -/
def drawFillTri (W H : Int) (tri : RasterTriangle) : Except String FillTrace :=
  let vs := sortVerts tri.vert0 tri.vert1 tri.vert2
  let v1 := vs.1
  let v2 := vs.2.1
  let v3 := vs.2.2
  if v1.y = v3.y then .ok { scanlines := [], hlines := [], divs := [] }
  else
    let longDiv : FIXED × FIXED := (int2fx (v3.x - v1.x), int2fx (v3.y - v1.y))
    let invslopeLong := fxdiv longDiv.1 longDiv.2
    match topShortDiv v1 v2 v3 with
    | .error e => .error e
    | .ok topDiv =>
      let invslopeShort := fxdiv topDiv.1 topDiv.2
      let yStart := max 0 v1.y
      let yEnd := min (H - 1) v2.y
      let dy := yStart - v1.y
      let leftDeltaX := if middleLeft v1 v2 then invslopeShort else invslopeLong
      let rightDeltaX := if middleLeft v1 v2 then invslopeLong else invslopeShort
      let xLeft := wrap32 (int2fx v1.x + fxmul (int2fx dy) leftDeltaX)
      let xRight := wrap32 (int2fx v1.x + fxmul (int2fx dy) rightDeltaX)
      let top := topLoop leftDeltaX rightDeltaX (yEnd - yStart).toNat yStart xLeft xRight
      if v2.y < v3.y then
        let botDiv : FIXED × FIXED := (int2fx (v3.x - v2.x), int2fx (v3.y - v2.y))
        let invslopeShort2 := fxdiv botDiv.1 botDiv.2
        let leftDeltaX2 := if middleLeft v1 v2 then invslopeShort2 else invslopeLong
        let rightDeltaX2 := if middleLeft v1 v2 then invslopeLong else invslopeShort2
        let yStart2 := max 0 v2.y
        let yEnd2 := min (H - 1) v3.y
        let dy2 := yStart2 - v2.y
        let xLeft2 :=
          if middleLeft v1 v2 then wrap32 (int2fx v2.x + fxmul (int2fx dy2) leftDeltaX2)
          else wrap32 (top.2.1 + leftDeltaX2)
        let xRight2 :=
          if middleLeft v1 v2 then wrap32 (top.2.2 + rightDeltaX2)
          else wrap32 (int2fx v2.x + fxmul (int2fx dy2) rightDeltaX2)
        let bottom := bottomLoop leftDeltaX2 rightDeltaX2 (yEnd2 - yStart2).toNat yStart2
          xLeft2 xRight2
        .ok { scanlines := top.1 ++ bottom
              hlines := (top.1 ++ bottom).map (hlineOf W tri.color)
              divs := [longDiv, topDiv, botDiv] }
      else
        .ok { scanlines := top.1
              hlines := top.1.map (hlineOf W tri.color)
              divs := [longDiv, topDiv] }

/-- `drawFillTris`: the loop over the triangles of the buffer, one trace per triangle. -/
def drawFillTris (W H : Int) : List RasterTriangle → Except String (List FillTrace)
  | [] => .ok []
  | tri :: rest =>
    match drawFillTri W H tri with
    | .error e => .error e
    | .ok t =>
      match drawFillTris W H rest with
      | .error e => .error e
      | .ok ts => .ok (t :: ts)

/-- `drawWireframeTris`: the body holds only commented-out calls; it draws nothing. -/
def drawWireframeTris (_tri : List RasterTriangle) : List HLine := []

/-- `drawModelInstances`: geometry stage, depth sort, then `drawFillTris` on the
    sorted buffer (the text overlay at the end is left out). -/
def drawModelInstances (K : MathKernel) (W H : Int) (cam : Camera)
    (instances : List ModelInstance) (lightDir : Vec3) : Except String (List FillTrace) :=
  match emitTriangles K cam lightDir instances [] with
  | .error e => .error e
  | .ok buf => drawFillTris W H (sortStep buf)

/-- The half-open run `[left, right)` of a call, as `(row, left, right)`. -/
def runOf (h : HLine) : Int × Int × Int := (h.y, h.x1, h.x2 + 1)

/-- The pixels `(x, y)` of the run `[left, right)` of a call. -/
def runPixels (h : HLine) : List (Int × Int) :=
  (List.range (h.x2 + 1 - h.x1).toNat).map (fun k => (h.x1 + (k : Int), h.y))

/-- The pixels of all runs of a trace. -/
def filledPixels (t : FillTrace) : List (Int × Int) := t.hlines.flatMap runPixels

/-- The middle vertex lies on or to the left of the long edge `v1 -> v3` at
    height `v2.y` (for `v1.y < v3.y`, by cross-multiplication). -/
def leftOfLongEdge (v1 v2 v3 : RasterPoint) : Bool :=
  decide ((v2.x - v1.x) * (v3.y - v1.y) ≤ (v3.x - v1.x) * (v2.y - v1.y))

/-- A screen triangle with the given vertices, colour 0 and depth 0. -/
def screenTri (a b c : RasterPoint) : RasterTriangle :=
  { vert0 := a, vert1 := b, vert2 := c, color := 0, centroidZ := 0 }

/-! ## The faces that survive the tests of the geometry stage -/

/-- A face survives culling, near/far rejection and off-canvas rejection, as
    `drawModelInstances` performs them. -/
def survives (K : MathKernel) (cam : Camera) (v0 v1 v2 : Vec3) : Bool :=
  decide (K.vecDot (K.vecCross (K.vecSub v1 v0) (K.vecSub v2 v0)) v0 > 0) &&
  !(BEHIND_CAM cam v0 || BEHIND_CAM cam v1 || BEHIND_CAM cam v2) &&
  !(farReject cam v0 v1 v2) &&
  !(offCanvas cam (K.vecTransform cam.perspMat v0) (K.vecTransform cam.perspMat v1)
      (K.vecTransform cam.perspMat v2))

/-- The triangle of a face if it survives, nothing if it is skipped; `none`
    when a vertex index leaves `vertsCamSpace`. -/
def faceTriangles (K : MathKernel) (cam : Camera) (lightDir : Vec3) (instanceRotMat : List FIXED)
    (vertsCamSpace : List Vec3) (face : Face) : Option (List RasterTriangle) :=
  match vertsCamSpace[face.vertexIndex0]?, vertsCamSpace[face.vertexIndex1]?,
      vertsCamSpace[face.vertexIndex2]? with
  | some v0, some v1, some v2 =>
    some (if survives K cam v0 v1 v2 then
      [emittedTriangle K cam lightDir instanceRotMat v0 v1 v2 face] else [])
  | _, _, _ => none

/-- Concatenation of the results of `f` over a list; `none` as soon as one is `none`. -/
def collect {α β : Type} (f : α → Option (List β)) : List α → Option (List β)
  | [] => some []
  | a :: rest =>
    match f a, collect f rest with
    | some x, some y => some (x ++ y)
    | _, _ => none

/-- The triangles of the surviving faces of one instance, in face order. -/
def instanceTriangles (K : MathKernel) (cam : Camera) (lightDir : Vec3)
    (inst : ModelInstance) : Option (List RasterTriangle) :=
  match (List.range inst.mod.numVerts.toNat).mapM (fun i => inst.mod.verts[i]?) with
  | none => none
  | some vs =>
    collect (fun faceNum =>
        match inst.mod.faces[faceNum]? with
        | none => none
        | some face =>
          faceTriangles K cam lightDir
            (K.matrix4x4createYawPitchRoll inst.yaw inst.pitch inst.roll)
            (vs.map (toCamSpace K cam
              (K.matrix4x4createYawPitchRoll inst.yaw inst.pitch inst.roll) inst)) face)
      (List.range inst.mod.numFaces.toNat)

/-- The triangles of the surviving faces of a frame, in instance and face order. -/
def frameTriangles (K : MathKernel) (cam : Camera) (lightDir : Vec3)
    (instances : List ModelInstance) : Option (List RasterTriangle) :=
  collect (instanceTriangles K cam lightDir) instances

/-- The assertion message of a full triangle buffer. -/
def bufferFullMsg : String :=
  "draw.c: drawModelInstances: screenTriangleCount < DRAW_MAX_TRIANGLES"

/-- Appending `ts` one by one to `buf` under the capacity assertion. -/
def store (buf ts : List RasterTriangle) : Except String (List RasterTriangle) :=
  if (buf ++ ts).length ≤ DRAW_MAX_TRIANGLES then .ok (buf ++ ts) else .error bufferFullMsg

/-- The instance with its shading mode replaced. -/
def withShading (s : PolygonShadingType) (inst : ModelInstance) : ModelInstance :=
  { inst with shading := s }

/-- A two-slot pool with both slots occupied. -/
def fullPool : ModelInstancePool :=
  { POOL_CAPACITY := 2, instances := [blankInstance, blankInstance], firstAvailable := none,
    instanceCount := 2 }

/-- The pool `fullPool` after slot 0 has been released. -/
def releasedPool : ModelInstancePool :=
  { POOL_CAPACITY := 2
    instances := [{ blankInstance with isEmpty := true, __next := none }, blankInstance]
    firstAvailable := some 0, instanceCount := 1 }

/-- The pool `releasedPool` after an acquire with `sampleArgs`. -/
def reacquiredPool : ModelInstancePool :=
  { POOL_CAPACITY := 2
    instances :=
      [{ isEmpty := false, mod := sampleArgs.model, pos := ⟨256, 0, -512⟩, yaw := 1, pitch := 2,
         roll := 3, scale := 768, shading := .SHADING_WIREFRAME, __next := none },
       blankInstance]
    firstAvailable := none, instanceCount := 2 }

/-- An occupied instance in wireframe mode with one face, a triangle that is
    in front of the camera and projects to `(1,1)`, `(1,11)`, `(11,1)`. -/
def wireInstance : ModelInstance :=
  { isEmpty := false
    mod :=
      { faces := [sampleFace]
        verts := [⟨256, 256, -512⟩, ⟨256, 2816, -512⟩, ⟨2816, 256, -512⟩]
        numVerts := 3, numFaces := 1 }
    pos := ⟨0, 0, 0⟩, yaw := 0, pitch := 0, roll := 0, scale := 256
    shading := .SHADING_WIREFRAME, __next := none }

/-- An instance whose model lists the same visible face `n` times. -/
def crowdedInstance (n : Nat) : ModelInstance :=
  { isEmpty := false
    mod :=
      { faces := List.replicate n sampleFace, verts := visibleVerts
        numVerts := 3, numFaces := n }
    pos := ⟨0, 0, 0⟩, yaw := 0, pitch := 0, roll := 0, scale := 256
    shading := .SHADING_FLAT_LIGHTING, __next := none }

/-- The triangle emitted for the face of `crowdedInstance`. -/
def crowdedTriangle : RasterTriangle :=
  { vert0 := ⟨1, 1⟩, vert1 := ⟨1, 2⟩, vert2 := ⟨2, 1⟩, color := 32767, centroidZ := -512 }

/-- The flat-top test triangle `(0,0)`, `(10,0)`, `(5,10)`. -/
def flatTopTri : RasterTriangle := screenTri ⟨0, 0⟩ ⟨10, 0⟩ ⟨5, 10⟩

/-- The triangle `(10,0)`, `(20,10)`, `(5,10)`, which shares the edge from
    `(10,0)` to `(5,10)` with `flatTopTri` and lies on its other side. -/
def neighbourTri : RasterTriangle := screenTri ⟨10, 0⟩ ⟨20, 10⟩ ⟨5, 10⟩

/-- The scanlines walked for `flatTopTri` on a canvas of at least 11 rows. -/
def flatTopScanlines : List Scanline :=
  [⟨0, 128, 2560⟩, ⟨1, 256, 2432⟩, ⟨2, 384, 2304⟩, ⟨3, 512, 2176⟩, ⟨4, 640, 2048⟩,
   ⟨5, 768, 1920⟩, ⟨6, 896, 1792⟩, ⟨7, 1024, 1664⟩, ⟨8, 1152, 1536⟩, ⟨9, 1280, 1408⟩]

/-- The pixels that the runs of two triangles have in common. -/
def doubleCover (W H : Int) (t1 t2 : RasterTriangle) : Except String (List (Int × Int)) :=
  match drawFillTri W H t1, drawFillTri W H t2 with
  | .ok a, .ok b => .ok ((filledPixels a).filter (fun p => decide (p ∈ filledPixels b)))
  | .error e, _ => .error e
  | _, .error e => .error e

/-- The rows `y, y+1, ..., y+count-1` visited by a scanline loop. -/
def rowsFrom : Int → Nat → List Int
  | _, 0 => []
  | y, count + 1 => y :: rowsFrom (y + 1) count

/-- Camera-space vertices of a second triangle seen almost edge-on. -/
def edgeOnVerts3 : List Vec3 := [⟨800, 224, -2080⟩, ⟨864, 1088, -1472⟩, ⟨1216, 928, -2624⟩]

/-- Camera-space vertices of a triangle for which the product `n.x * v0.x`
    formed by the cull test equals `2^31`. -/
def overflowVerts : List Vec3 := [⟨32768, 256, -8192⟩, ⟨32768, 4352, -8192⟩, ⟨32768, 256, -4096⟩]

/-- The three products formed by `vecDot(n, v)` lie strictly inside the 32-bit
    range, so that neither they nor their negations wrap around. -/
def DotInRange (n v : Vec3) : Prop :=
  (-2147483648 < n.x * v.x ∧ n.x * v.x < 2147483648) ∧
  (-2147483648 < n.y * v.y ∧ n.y * v.y < 2147483648) ∧
  (-2147483648 < n.z * v.z ∧ n.z * v.z < 2147483648)

/-! ## Predicates used in the proofs about the pool -/

/-- `Linked insts head chain`: following `__next` from `head` visits exactly the
    slots of `chain`, in order, every one of them free, and then reaches `NULL`. -/
def Linked (insts : List ModelInstance) : Option Nat → List Nat → Prop
  | h, [] => h = none
  | h, c :: cs =>
    h = some c ∧ ∃ s, insts[c]? = some s ∧ s.isEmpty = true ∧ Linked insts s.__next cs

/-- A well-formed pool over `n` slots whose free list is `chain`. -/
def PoolState (n : Nat) (pool : ModelInstancePool) (chain : List Nat) : Prop :=
  pool.POOL_CAPACITY = n ∧ pool.instances.length = n ∧ chain.Nodup ∧
  Linked pool.instances pool.firstAvailable chain ∧
  pool.instanceCount + chain.length = n

/-- The assertion message of `modelInstanceAdd` on an exhausted free list. -/
def exhaustedMsg : String := "model.c: modelInstanceAdd: pool capacity not exceeded (by pointer)"

/-! ## Lemmas: the pool -/

theorem writeSlot_getElem? (l : List ModelInstance) (j : Nat) (f : ModelInstance → ModelInstance)
    (i : Nat) : (writeSlot l j f)[i]? = if i = j then (l[i]?).map f else l[i]? := by
  unfold writeSlot
  by_cases hij : i = j
  · subst hij
    cases h : l[i]? with
    | none => simp [h]
    | some s =>
      have hi : i < l.length := (List.getElem?_eq_some_iff.mp h).1
      simp [h, hi]
  · cases h : l[j]? with
    | none => simp [hij]
    | some s => simp [hij, List.getElem?_set_ne (Ne.symm hij)]

theorem writeSlot_length (l : List ModelInstance) (j : Nat) (f : ModelInstance → ModelInstance) :
    (writeSlot l j f).length = l.length := by
  unfold writeSlot
  cases l[j]? <;> simp

theorem resetLoop_length (cap : Int) (m : Nat) (insts : List ModelInstance) :
    ((List.range m).foldl (fun insts i => writeSlot insts i (resetSlot cap i)) insts).length
      = insts.length := by
  induction m with
  | zero => simp
  | succ m ih => simp [List.range_succ, List.foldl_append, writeSlot_length, ih]

theorem resetLoop_getElem? (cap : Int) (m : Nat) (insts : List ModelInstance) (i : Nat) :
    ((List.range m).foldl (fun insts i => writeSlot insts i (resetSlot cap i)) insts)[i]?
      = if i < m then (insts[i]?).map (resetSlot cap i) else insts[i]? := by
  induction m with
  | zero => simp
  | succ m ih =>
    simp only [List.range_succ, List.foldl_append, List.foldl_cons, List.foldl_nil,
      writeSlot_getElem?, ih]
    by_cases h1 : i = m
    · subst h1; simp
    · by_cases h2 : i < m
      · have : i < m + 1 := by omega
        simp [h1, h2, this]
      · have : ¬ i < m + 1 := by omega
        simp [h1, h2, this]

theorem linked_lt_length {insts : List ModelInstance} {h : Option Nat} {chain : List Nat}
    (hl : Linked insts h chain) : ∀ c ∈ chain, c < insts.length := by
  induction chain generalizing h with
  | nil => intro c hc; cases hc
  | cons d ds ih =>
    obtain ⟨_, s, hs, _, hrest⟩ := hl
    intro c hc
    rcases List.mem_cons.mp hc with rfl | hc
    · exact (List.getElem?_eq_some_iff.mp hs).1
    · exact ih hrest c hc

theorem linked_set_of_not_mem {insts : List ModelInstance} {h : Option Nat} {chain : List Nat}
    (c : Nat) (v : ModelInstance) (hc : c ∉ chain) (hl : Linked insts h chain) :
    Linked (insts.set c v) h chain := by
  induction chain generalizing h with
  | nil => exact hl
  | cons d ds ih =>
    obtain ⟨hh, s, hs, he, hrest⟩ := hl
    have hcd : c ≠ d := fun e => hc (e ▸ List.mem_cons_self _ _)
    have hcds : c ∉ ds := fun e => hc (List.mem_cons_of_mem _ e)
    refine ⟨hh, s, ?_, he, ih hcds hrest⟩
    rw [List.getElem?_set_ne hcd]
    exact hs

theorem poolState_length_le {n : Nat} {pool : ModelInstancePool} {chain : List Nat}
    (hp : PoolState n pool chain) : chain.length ≤ n := by
  obtain ⟨_, hlen, hnd, hl, _⟩ := hp
  have hsub : chain ⊆ List.range n := by
    intro c hc
    have := linked_lt_length hl c hc
    simp [List.mem_range]; omega
  have := (List.subperm_of_subset hnd hsub).length_le
  simpa using this

theorem addWith_eq (pool : ModelInstancePool) (a : AddArgs) (c : Nat) (s : ModelInstance)
    (p : Vec3) (hfa : pool.firstAvailable = some c)
    (hlt : pool.instanceCount < pool.POOL_CAPACITY) (hs : pool.instances[c]? = some s)
    (he : s.isEmpty = true) (hp : a.pos = some p) :
    addWith pool a = .ok ({ pool with
      firstAvailable := s.__next
      instances := pool.instances.set c
        { isEmpty := false, mod := a.model, pos := p, yaw := a.yaw, pitch := a.pitch,
          roll := a.roll, scale := a.scale, shading := a.shading, __next := s.__next }
      instanceCount := pool.instanceCount + 1 }, c) := by
  simp only [addWith, modelInstanceAdd, hfa, hlt, hs, he, hp, not_true_eq_false, if_false]

theorem remove_eq (pool : ModelInstancePool) (i : Nat) (slot : ModelInstance)
    (hpos : pool.instanceCount > 0) (hslot : pool.instances[i]? = some slot) :
    modelInstanceRemove pool (some i) = .ok ({ pool with
      instances := pool.instances.set i
        { slot with isEmpty := true, __next := pool.firstAvailable }
      firstAvailable := some i
      instanceCount := pool.instanceCount - 1 }, pool.instanceCount - 1) := by
  simp only [modelInstanceRemove, hpos, hslot, not_true_eq_false, if_false]

theorem add_step {n : Nat} {pool : ModelInstancePool} {c : Nat} {cs : List Nat}
    (hp : PoolState n pool (c :: cs)) (a : AddArgs) (hpos : a.pos ≠ none) :
    ∃ pool1, addWith pool a = .ok (pool1, c) ∧ PoolState n pool1 cs := by
  obtain ⟨hcap, hlen, hnd, ⟨hfa, s, hs, he, hrest⟩, hcount⟩ := hp
  obtain ⟨p, hp⟩ := Option.ne_none_iff_exists'.mp hpos
  have hlt : pool.instanceCount < pool.POOL_CAPACITY := by
    rw [hcap]; simp at hcount; omega
  have hc : c ∉ cs := (List.nodup_cons.mp hnd).1
  refine ⟨_, addWith_eq pool a c s p hfa hlt hs he hp, ?_⟩
  refine ⟨hcap, ?_, (List.nodup_cons.mp hnd).2, ?_, ?_⟩
  · simp [hlen]
  · exact linked_set_of_not_mem c _ hc hrest
  · simp at hcount ⊢; omega

theorem add_full {n : Nat} {pool : ModelInstancePool} (hp : PoolState n pool []) (a : AddArgs) :
    addWith pool a = .error exhaustedMsg := by
  obtain ⟨_, _, _, hfa, _⟩ := hp
  have hfa : pool.firstAvailable = none := hfa
  simp [addWith, modelInstanceAdd, hfa, exhaustedMsg]

theorem addMany_chain {n : Nat} (chain : List Nat) :
    ∀ (pool : ModelInstancePool) (as : List AddArgs), PoolState n pool chain →
      as.length = chain.length → (∀ a ∈ as, a.pos ≠ none) →
      ∃ pool1, addMany pool as = .ok (pool1, chain) ∧ PoolState n pool1 [] := by
  induction chain with
  | nil =>
    intro pool as hp hlen _
    have : as = [] := List.length_eq_zero.mp (by simpa using hlen)
    subst this
    exact ⟨pool, rfl, hp⟩
  | cons c cs ih =>
    intro pool as hp hlen hpos
    cases as with
    | nil => simp at hlen
    | cons a as =>
      obtain ⟨pool1, h1, hp1⟩ := add_step hp a (hpos a (List.mem_cons_self _ _))
      obtain ⟨pool2, h2, hp2⟩ := ih pool1 as hp1 (by simpa using hlen)
        (fun b hb => hpos b (List.mem_cons_of_mem _ hb))
      exact ⟨pool2, by simp [addMany, h1, h2], hp2⟩

theorem remove_step {n : Nat} {pool : ModelInstancePool} {chain : List Nat}
    (hp : PoolState n pool chain) (i : Nat) (hi : i < n) (hic : i ∉ chain) :
    ∃ pool1, modelInstanceRemove pool (some i) = .ok (pool1, pool.instanceCount - 1) ∧
      PoolState n pool1 (i :: chain) := by
  have hle := poolState_length_le hp
  obtain ⟨hcap, hlen, hnd, hl, hcount⟩ := hp
  have hsub : (i :: chain) ⊆ List.range n := by
    intro c hc
    rcases List.mem_cons.mp hc with rfl | hc
    · simpa [List.mem_range] using hi
    · have := linked_lt_length hl c hc
      simp [List.mem_range]; omega
  have hnd1 : (i :: chain).Nodup := List.nodup_cons.mpr ⟨hic, hnd⟩
  have hlen1 : chain.length + 1 ≤ n := by
    simpa using (List.subperm_of_subset hnd1 hsub).length_le
  have hpos : pool.instanceCount > 0 := by omega
  have hi1 : i < pool.instances.length := by omega
  obtain ⟨slot, hslot⟩ : ∃ slot, pool.instances[i]? = some slot :=
    ⟨pool.instances[i], List.getElem?_eq_getElem hi1⟩
  refine ⟨_, remove_eq pool i slot hpos hslot, ?_⟩
  refine ⟨hcap, by simp [hlen], hnd1, ?_, ?_⟩
  · refine ⟨rfl, { slot with isEmpty := true, __next := pool.firstAvailable }, ?_, rfl, ?_⟩
    · show (pool.instances.set i _)[i]? = _
      simp [hi1]
    · exact linked_set_of_not_mem i _ hic hl
  · simp; omega

theorem removeMany_order {n : Nat} (order : List Nat) :
    ∀ (pool : ModelInstancePool) (chain : List Nat), PoolState n pool chain →
      order.Nodup → (∀ i ∈ order, i < n ∧ i ∉ chain) →
      ∃ pool1, removeMany pool order = .ok pool1 ∧ PoolState n pool1 (order.reverse ++ chain) := by
  induction order with
  | nil => intro pool chain hp _ _; exact ⟨pool, rfl, by simpa using hp⟩
  | cons i is ih =>
    intro pool chain hp hnd hmem
    obtain ⟨hi, hic⟩ := hmem i (List.mem_cons_self _ _)
    obtain ⟨pool1, h1, hp1⟩ := remove_step hp i hi hic
    have hnd' := List.nodup_cons.mp hnd
    obtain ⟨pool2, h2, hp2⟩ := ih pool1 (i :: chain) hp1 hnd'.2 (by
      intro j hj
      refine ⟨(hmem j (List.mem_cons_of_mem _ hj)).1, ?_⟩
      intro hjc
      rcases List.mem_cons.mp hjc with rfl | hjc
      · exact hnd'.1 hj
      · exact (hmem j (List.mem_cons_of_mem _ hj)).2 hjc)
    exact ⟨pool2, by simp [removeMany, h1, h2], by simpa using hp2⟩

theorem linked_range {insts : List ModelInstance} {n : Nat}
    (hget : ∀ i, i < n → ∃ s, insts[i]? = some s ∧ s.isEmpty = true ∧
      s.__next = if i + 1 < n then some (i + 1) else none) :
    ∀ (m k : Nat), k + m = n → 0 < m → Linked insts (some k) (List.range' k m) := by
  intro m
  induction m with
  | zero => intro k _ h; omega
  | succ m ih =>
    intro k hk _
    obtain ⟨s, hs, he, hn⟩ := hget k (by omega)
    refine ⟨rfl, s, hs, he, ?_⟩
    by_cases hm : m = 0
    · subst hm
      have : ¬ k + 1 < n := by omega
      simp [hn, this, Linked]
    · have : k + 1 < n := by omega
      rw [hn, if_pos this]
      exact ih (k + 1) (by omega) (by omega)

theorem reset_state (n : Nat) (hn : 1 ≤ n) (pool : ModelInstancePool)
    (hcap : pool.POOL_CAPACITY = n) (hlen : pool.instances.length = n) :
    (modelInstancePoolReset pool).POOL_CAPACITY = n ∧
    (modelInstancePoolReset pool).instances.length = n ∧
    Linked (modelInstancePoolReset pool).instances (modelInstancePoolReset pool).firstAvailable
      (List.range n) ∧
    (modelInstancePoolReset pool).instanceCount = pool.instanceCount := by
  refine ⟨hcap, ?_, ?_, rfl⟩
  · simp [modelInstancePoolReset, resetLoop_length, hlen]
  · rw [List.range_eq_range']
    apply linked_range (n := n) _ n 0 (by omega) (by omega)
    intro i hi
    refine ⟨resetSlot n i (pool.instances.get ⟨i, by omega⟩), ?_, rfl, ?_⟩
    · simp only [modelInstancePoolReset, resetLoop_getElem?, hcap]
      have h1 : i < (n : Int).toNat := by simpa using hi
      have h2 : pool.instances[i]? = some (pool.instances.get ⟨i, by omega⟩) := by
        simp [List.getElem?_eq_getElem (show i < pool.instances.length by omega)]
      rw [if_pos h1, h2]
      rfl
    · simp only [resetSlot]
      by_cases h : i + 1 < n
      · have : (i : Int) + 1 < (n : Int) := by omega
        simp [h, this]
      · have : ¬ (i : Int) + 1 < (n : Int) := by omega
        simp [h, this]

theorem new_state (n : Nat) (hn : 1 ≤ n) (buffer : List ModelInstance)
    (hbuf : buffer.length = n) :
    PoolState n (modelInstancePoolNew buffer n) (List.range n) := by
  obtain ⟨h1, h2, h3, h4⟩ := reset_state n hn
    { POOL_CAPACITY := n, instances := buffer, firstAvailable := none, instanceCount := 0 }
    rfl hbuf
  refine ⟨h1, h2, List.nodup_range n, h3, ?_⟩
  show (modelInstancePoolReset _).instanceCount + _ = _
  rw [h4]
  simp

theorem remove_fails_when_empty (pool : ModelInstancePool) (i : Nat)
    (h : pool.instanceCount ≤ 0) :
    modelInstanceRemove pool (some i)
      = .error "model.c: modelInstancePoolRemove: instance pool not empty" := by
  have : ¬ pool.instanceCount > 0 := not_lt.mpr h
  simp only [modelInstanceRemove, this, not_false_eq_true, if_true]

/-! ## The instance pool: claims -/

/-- C1 (pool invariant), evaluated on the code.  A two-slot pool with both
    instances acquired, on which slot 0 is released twice: all four calls pass
    their assertions, and the resulting free list is the cycle `0 → 0`, so the
    invariant check fails.  A reset after one acquire likewise leaves
    `instanceCount = 1` next to a free list of two slots. -/
theorem pool_invariant_broken :
    (runOps (modelInstancePoolNew [blankInstance, blankInstance] 2)
        [.add sampleArgs, .add sampleArgs, .remove (some 0), .remove (some 0)]).map
      (fun p => (observe p, freeChain p, poolInvariant p))
      = .ok ((some 0, 0, [(true, some 0), (false, none)]), none, false) ∧
    (runOps (modelInstancePoolNew [blankInstance, blankInstance] 2)
        [.add sampleArgs, .reset]).map (fun p => (observe p, freeChain p, poolInvariant p))
      = .ok ((some 0, 1, [(true, some 1), (true, none)]), some [0, 1], false) := by
  constructor <;> rfl

/-- C2 (pool round trip): over an `n`-slot buffer, `n ≥ 1`, the first `n`
    acquires succeed with pairwise distinct slots and one more acquire fails its
    assertion; after releasing all `n` slots in any order, `n` further acquires
    succeed with pairwise distinct slots and one more fails again. -/
theorem pool_round_trip (n : Nat) (hn : 1 ≤ n) (buffer : List ModelInstance)
    (hbuf : buffer.length = n) (as1 as2 : List AddArgs)
    (hlen1 : as1.length = n) (hlen2 : as2.length = n)
    (hpos1 : ∀ a ∈ as1, a.pos ≠ none) (hpos2 : ∀ a ∈ as2, a.pos ≠ none) (extra : AddArgs) :
    ∃ pool1 slots1, addMany (modelInstancePoolNew buffer n) as1 = .ok (pool1, slots1) ∧
      slots1.length = n ∧ slots1.Nodup ∧
      addWith pool1 extra = .error exhaustedMsg ∧
      ∀ order : List Nat, order.Perm slots1 →
        ∃ pool2, removeMany pool1 order = .ok pool2 ∧
          ∃ pool3 slots2, addMany pool2 as2 = .ok (pool3, slots2) ∧
            slots2.length = n ∧ slots2.Nodup ∧
            addWith pool3 extra = .error exhaustedMsg := by
  obtain ⟨pool1, h1, hp1⟩ := addMany_chain (List.range n) _ as1 (new_state n hn buffer hbuf)
    (by simpa using hlen1) hpos1
  refine ⟨pool1, List.range n, h1, by simp, List.nodup_range n, add_full hp1 extra, ?_⟩
  intro order hperm
  have hnd : order.Nodup := hperm.nodup_iff.mpr (List.nodup_range n)
  obtain ⟨pool2, h2, hp2⟩ := removeMany_order order pool1 [] hp1 hnd (by
    intro i hi
    exact ⟨List.mem_range.mp (hperm.mem_iff.mp hi), List.not_mem_nil i⟩)
  have hlen : order.length = n := by simpa using hperm.length_eq
  obtain ⟨pool3, h3, hp3⟩ := addMany_chain (order.reverse ++ []) pool2 as2 hp2
    (by simpa [hlen] using hlen2) hpos2
  refine ⟨pool2, h2, pool3, order.reverse ++ [], h3, by simpa using hlen, ?_, add_full hp3 extra⟩
  simpa using hnd

/-- Witness of `pool_round_trip`: a two-slot buffer. -/
theorem pool_round_trip_witness :
    ∃ pool1 slots1,
      addMany (modelInstancePoolNew [blankInstance, blankInstance] 2) [sampleArgs, sampleArgs]
        = .ok (pool1, slots1) ∧
      slots1.length = 2 ∧ slots1.Nodup ∧
      addWith pool1 sampleArgs = .error exhaustedMsg ∧
      ∀ order : List Nat, order.Perm slots1 →
        ∃ pool2, removeMany pool1 order = .ok pool2 ∧
          ∃ pool3 slots2, addMany pool2 [sampleArgs, sampleArgs] = .ok (pool3, slots2) ∧
            slots2.length = 2 ∧ slots2.Nodup ∧
            addWith pool3 sampleArgs = .error exhaustedMsg :=
  pool_round_trip 2 (by decide) [blankInstance, blankInstance] rfl [sampleArgs, sampleArgs]
    [sampleArgs, sampleArgs] rfl rfl (by simp [sampleArgs]) (by simp [sampleArgs]) sampleArgs

/-- C4 (release of an already-free instance), evaluated on the code.  With two
    live instances, slot 0 is released (live count 1, slot 0 free) and then
    released again: the second call passes its assertions, returns live count 0
    and links slot 0 to itself, although slot 1 is still occupied. -/
theorem double_release_not_detected :
    (runOps (modelInstancePoolNew [blankInstance, blankInstance] 2)
        [.add sampleArgs, .add sampleArgs, .remove (some 0)]).map observe
      = .ok (some 0, 1, [(true, none), (false, none)]) ∧
    (runOps (modelInstancePoolNew [blankInstance, blankInstance] 2)
        [.add sampleArgs, .add sampleArgs, .remove (some 0), .remove (some 0)]).map observe
      = .ok (some 0, 0, [(true, some 0), (false, none)]) ∧
    runOps (modelInstancePoolNew [blankInstance, blankInstance] 2)
        [.add sampleArgs, .add sampleArgs, .remove (some 0), .remove (some 0),
         .add sampleArgs, .add sampleArgs]
      = .error "model.c: modelInstanceAdd: first availabe empty" := by
  refine ⟨?_, ?_, ?_⟩ <;> rfl

/-- C5 (reset), evaluated on the code.  Resetting a two-slot pool that holds one
    live instance marks both slots free and rebuilds the free list `0 → 1 → NULL`,
    but `instanceCount` stays 1; of the two acquires that follow, the second fails
    the count assertion while the free list still holds slot 1. -/
theorem reset_keeps_instanceCount :
    (runOps (modelInstancePoolNew [blankInstance, blankInstance] 2)
        [.add sampleArgs, .reset]).map observe
      = .ok (some 0, 1, [(true, some 1), (true, none)]) ∧
    (runOps (modelInstancePoolNew [blankInstance, blankInstance] 2)
        [.add sampleArgs, .reset, .add sampleArgs]).map observe
      = .ok (some 1, 2, [(false, some 1), (true, none)]) ∧
    runOps (modelInstancePoolNew [blankInstance, blankInstance] 2)
        [.add sampleArgs, .reset, .add sampleArgs, .add sampleArgs]
      = .error "model.c: modelInstancePoolAdd: pool capacity not exceeded (by count)" := by
  refine ⟨?_, ?_, ?_⟩ <;> rfl

/-- C10 (acquire postcondition): when `firstAvailable` points to a free slot `c`
    and `instanceCount < POOL_CAPACITY`, `modelInstanceAdd` returns `c`, moves
    `firstAvailable` to the former `__next` of `c`, marks `c` occupied with the
    given model, position, scale, yaw, pitch, roll and shading stored unchanged,
    and raises `instanceCount` by one; when `firstAvailable` is `NULL` or
    `instanceCount >= POOL_CAPACITY` the call fails an assertion. -/
theorem modelInstanceAdd_post (pool : ModelInstancePool) (model : Model) (pos : Vec3)
    (posPtr : Option Vec3) (scale : FIXED) (yaw pitch roll : ANGLE_FIXED_12)
    (shading : PolygonShadingType) :
    (∀ (c : Nat) (s : ModelInstance), pool.firstAvailable = some c →
      pool.instances[c]? = some s → s.isEmpty = true →
      pool.instanceCount < pool.POOL_CAPACITY →
      ∃ pool1 t, modelInstanceAdd pool model (some pos) scale yaw pitch roll shading
          = .ok (pool1, c) ∧
        pool1.firstAvailable = s.__next ∧
        pool1.instances[c]? = some t ∧ t.isEmpty = false ∧ t.mod = model ∧ t.pos = pos ∧
        t.scale = scale ∧ t.yaw = yaw ∧ t.pitch = pitch ∧ t.roll = roll ∧
        t.shading = shading ∧
        pool1.instanceCount = pool.instanceCount + 1 ∧
        pool1.POOL_CAPACITY = pool.POOL_CAPACITY) ∧
    (pool.firstAvailable = none ∨ pool.POOL_CAPACITY ≤ pool.instanceCount →
      ∃ msg, modelInstanceAdd pool model posPtr scale yaw pitch roll shading = .error msg) := by
  constructor
  · intro c s hfa hs he hlt
    have hc : c < pool.instances.length := (List.getElem?_eq_some_iff.mp hs).1
    refine ⟨_, ⟨false, model, pos, yaw, pitch, roll, scale, shading, s.__next⟩,
      addWith_eq pool ⟨model, some pos, scale, yaw, pitch, roll, shading⟩ c s pos
        hfa hlt hs he rfl, rfl, ?_, rfl, rfl, rfl, rfl, rfl, rfl, rfl, rfl, rfl, rfl⟩
    show (pool.instances.set c _)[c]? = _
    simp [hc]
  · intro h
    cases hfa : pool.firstAvailable with
    | none => exact ⟨exhaustedMsg, by simp only [modelInstanceAdd, hfa, exhaustedMsg]⟩
    | some c =>
      rcases h with h | h
      · rw [hfa] at h; cases h
      · have : ¬ pool.instanceCount < pool.POOL_CAPACITY := not_lt.mpr h
        exact ⟨"model.c: modelInstancePoolAdd: pool capacity not exceeded (by count)",
          by simp only [modelInstanceAdd, hfa, this, not_false_eq_true, if_true]⟩

/-- Witness of `modelInstanceAdd_post`: a fresh two-slot pool (slot 0 is handed
    out) and the same pool once it is full (the call fails). -/
theorem modelInstanceAdd_post_witness :
    (∃ pool1 t, modelInstanceAdd (modelInstancePoolNew [blankInstance, blankInstance] 2)
          sampleArgs.model (some ⟨256, 0, -512⟩) 768 1 2 3 .SHADING_WIREFRAME = .ok (pool1, 0) ∧
        pool1.firstAvailable = some 1 ∧
        pool1.instances[0]? = some t ∧ t.isEmpty = false ∧ t.mod = sampleArgs.model ∧
        t.pos = ⟨256, 0, -512⟩ ∧ t.scale = 768 ∧ t.yaw = 1 ∧ t.pitch = 2 ∧ t.roll = 3 ∧
        t.shading = .SHADING_WIREFRAME ∧
        pool1.instanceCount = 0 + 1 ∧ pool1.POOL_CAPACITY = 2) ∧
    (∃ msg, modelInstanceAdd
        { POOL_CAPACITY := 2, instances := [blankInstance, blankInstance],
          firstAvailable := none, instanceCount := 2 }
        sampleArgs.model none 768 1 2 3 .SHADING_WIREFRAME = .error msg) :=
  ⟨(modelInstanceAdd_post (modelInstancePoolNew [blankInstance, blankInstance] 2)
      sampleArgs.model ⟨256, 0, -512⟩ none 768 1 2 3 .SHADING_WIREFRAME).1 0
      (resetSlot 2 0 blankInstance) rfl rfl rfl (by decide),
   (modelInstanceAdd_post
      { POOL_CAPACITY := 2, instances := [blankInstance, blankInstance],
        firstAvailable := none, instanceCount := 2 }
      sampleArgs.model ⟨0, 0, 0⟩ none 768 1 2 3 .SHADING_WIREFRAME).2 (Or.inl rfl)⟩

/-! ## Lemmas: the face loop body -/

theorem processFace_eq (K : MathKernel) (cam : Camera) (lightDir : Vec3)
    (rot : List FIXED) (verts : List Vec3) (face : Face) (buf : List RasterTriangle)
    (v0 v1 v2 : Vec3) (h0 : verts[face.vertexIndex0]? = some v0)
    (h1 : verts[face.vertexIndex1]? = some v1) (h2 : verts[face.vertexIndex2]? = some v2) :
    processFace K cam lightDir rot verts face buf
      = processTri K cam lightDir rot v0 v1 v2 face buf := by
  simp only [processFace, h0, h1, h2]

theorem processTri_culled (K : MathKernel) (cam : Camera) (lightDir : Vec3)
    (rot : List FIXED) (v0 v1 v2 : Vec3) (face : Face) (buf : List RasterTriangle)
    (h : K.vecDot (K.vecCross (K.vecSub v1 v0) (K.vecSub v2 v0)) v0 ≤ 0) :
    processTri K cam lightDir rot v0 v1 v2 face buf = .ok buf := by
  simp only [processTri, h, if_true]

theorem processTri_behind (K : MathKernel) (cam : Camera) (lightDir : Vec3)
    (rot : List FIXED) (v0 v1 v2 : Vec3) (face : Face) (buf : List RasterTriangle)
    (h : v0.z > neg32 cam.near ∨ v1.z > neg32 cam.near ∨ v2.z > neg32 cam.near) :
    processTri K cam lightDir rot v0 v1 v2 face buf = .ok buf := by
  have hb : (BEHIND_CAM cam v0 || BEHIND_CAM cam v1 || BEHIND_CAM cam v2) = true := by
    simp only [BEHIND_CAM, Bool.or_eq_true, decide_eq_true_eq]
    tauto
  simp only [processTri, hb, if_true]
  split <;> rfl

theorem processTri_offCanvas (K : MathKernel) (cam : Camera) (lightDir : Vec3)
    (rot : List FIXED) (v0 v1 v2 : Vec3) (face : Face) (buf : List RasterTriangle)
    (h : offCanvas cam (K.vecTransform cam.perspMat v0) (K.vecTransform cam.perspMat v1)
      (K.vecTransform cam.perspMat v2) = true) :
    processTri K cam lightDir rot v0 v1 v2 face buf = .ok buf := by
  by_cases hb : v0.z > neg32 cam.near ∨ v1.z > neg32 cam.near ∨ v2.z > neg32 cam.near
  · exact processTri_behind K cam lightDir rot v0 v1 v2 face buf hb
  · have hz : v0.z ≤ neg32 cam.near ∧ v1.z ≤ neg32 cam.near ∧ v2.z ≤ neg32 cam.near := by
      simp only [not_or, not_lt, gt_iff_lt] at hb
      exact hb
    simp only [processTri, h, hz, and_self, not_true_eq_false, if_true, if_false]
    repeat' split
    all_goals rfl

theorem processTri_emitted (K : MathKernel) (cam : Camera) (lightDir : Vec3)
    (rot : List FIXED) (v0 v1 v2 : Vec3) (face : Face) (buf : List RasterTriangle)
    (hdot : K.vecDot (K.vecCross (K.vecSub v1 v0) (K.vecSub v2 v0)) v0 > 0)
    (hnear : v0.z ≤ neg32 cam.near ∧ v1.z ≤ neg32 cam.near ∧ v2.z ≤ neg32 cam.near)
    (hfar : farReject cam v0 v1 v2 = false)
    (hcanvas : offCanvas cam (K.vecTransform cam.perspMat v0) (K.vecTransform cam.perspMat v1)
      (K.vecTransform cam.perspMat v2) = false)
    (hroom : buf.length < DRAW_MAX_TRIANGLES) :
    processTri K cam lightDir rot v0 v1 v2 face buf
      = .ok (buf ++ [emittedTriangle K cam lightDir rot v0 v1 v2 face]) := by
  have hd : ¬ K.vecDot (K.vecCross (K.vecSub v1 v0) (K.vecSub v2 v0)) v0 ≤ 0 := not_le.mpr hdot
  have hb : (BEHIND_CAM cam v0 || BEHIND_CAM cam v1 || BEHIND_CAM cam v2) = false := by
    simp only [BEHIND_CAM, Bool.or_eq_false_iff, decide_eq_false_iff_not, not_lt, gt_iff_lt]
    exact ⟨⟨hnear.1, hnear.2.1⟩, hnear.2.2⟩
  simp [processTri, hd, hb, hfar, hnear, hcanvas, hroom]

theorem not_ok_append_self (buf : List RasterTriangle) (t : RasterTriangle) :
    (Except.ok buf : Except String (List RasterTriangle)) ≠ .ok (buf ++ [t]) := by
  intro h
  have h1 : buf = buf ++ [t] := by injection h
  have h2 := congrArg List.length h1
  simp at h2

theorem fx2int_neg (p : Int) (h : fx2int p < 0) : p < 0 := by
  by_contra hp
  have : 0 ≤ fx2int p := Int.tdiv_nonneg (not_lt.mp hp) (by decide)
  omega

theorem le_fx2int (p : Int) (w : Int) (hw : 0 < w) (h : w ≤ fx2int p) : w * FIX_SCALE ≤ p := by
  by_cases hp : 0 ≤ p
  · have he : fx2int p = p / 256 := Int.tdiv_eq_ediv hp (by decide)
    rw [he] at h
    simp only [FIX_SCALE]
    omega
  · have hq : 0 ≤ -p := by omega
    have h1 : fx2int p = -((-p).tdiv 256) := by
      simp only [fx2int, FIX_SCALE, Int.neg_tdiv, neg_neg]
    have h2 : 0 ≤ (-p).tdiv 256 := Int.tdiv_nonneg hq (by decide)
    rw [h1] at h
    generalize (-p).tdiv 256 = t at h h2
    omega

/-! ## The geometry stage: claims -/

/-- C3 (far-plane rejection), evaluated on the code.  The third vertex of the
    face lies beyond the far plane (`z = -20000 < -far = -16384`), the far test
    does not fire and the face is emitted; the same triangle presented with that
    vertex in first or second position is rejected by the far test. -/
theorem far_plane_third_vertex_unchecked :
    (-20000 : Int) < neg32 sampleCamera.far ∧
    processFace fixedKernel sampleCamera sampleLight identityMat farThirdVerts sampleFace []
      = .ok [{ vert0 := ⟨1, 1⟩, vert1 := ⟨2, 1⟩, vert2 := ⟨1, 2⟩, color := 32767,
               centroidZ := -512 }] ∧
    farReject sampleCamera ⟨256, 256, -512⟩ ⟨512, 256, -512⟩ ⟨256, 512, -20000⟩ = false ∧
    farReject sampleCamera ⟨512, 256, -512⟩ ⟨256, 512, -20000⟩ ⟨256, 256, -512⟩ = true ∧
    farReject sampleCamera ⟨256, 512, -20000⟩ ⟨256, 256, -512⟩ ⟨512, 256, -512⟩ = true := by
  refine ⟨by decide, ?_, ?_, ?_, ?_⟩ <;> rfl

/-- C7 (near-plane rejection): if any of the three camera-space vertices of a
    face has `z > -cam->near`, the face leaves the triangle buffer unchanged;
    hence a face that appends a triangle has all three `z <= -cam->near`. -/
theorem near_plane_rejection (K : MathKernel) (cam : Camera) (lightDir : Vec3)
    (rot : List FIXED) (verts : List Vec3) (face : Face) (buf : List RasterTriangle)
    (v0 v1 v2 : Vec3) (h0 : verts[face.vertexIndex0]? = some v0)
    (h1 : verts[face.vertexIndex1]? = some v1) (h2 : verts[face.vertexIndex2]? = some v2) :
    (v0.z > neg32 cam.near ∨ v1.z > neg32 cam.near ∨ v2.z > neg32 cam.near →
      processFace K cam lightDir rot verts face buf = .ok buf) ∧
    (∀ t, processFace K cam lightDir rot verts face buf = .ok (buf ++ [t]) →
      v0.z ≤ neg32 cam.near ∧ v1.z ≤ neg32 cam.near ∧ v2.z ≤ neg32 cam.near) := by
  rw [processFace_eq K cam lightDir rot verts face buf v0 v1 v2 h0 h1 h2]
  refine ⟨processTri_behind K cam lightDir rot v0 v1 v2 face buf, ?_⟩
  intro t ht
  by_contra hz
  have hb : v0.z > neg32 cam.near ∨ v1.z > neg32 cam.near ∨ v2.z > neg32 cam.near := by
    by_contra hn
    simp only [not_or, not_lt, gt_iff_lt] at hn
    exact hz hn
  rw [processTri_behind K cam lightDir rot v0 v1 v2 face buf hb] at ht
  exact not_ok_append_self buf t ht

/-- Witness of `near_plane_rejection`: a face with one vertex at `z = -0.5`
    (near plane at `-1.0`) is skipped, and an emitted face has all vertices at `z = -2.0`. -/
theorem near_plane_rejection_witness :
    processFace fixedKernel sampleCamera sampleLight identityMat nearVerts sampleFace [] = .ok [] ∧
    ((-512 : Int) ≤ neg32 sampleCamera.near ∧ (-512 : Int) ≤ neg32 sampleCamera.near ∧
      (-512 : Int) ≤ neg32 sampleCamera.near) :=
  ⟨(near_plane_rejection fixedKernel sampleCamera sampleLight identityMat nearVerts sampleFace []
      ⟨256, 256, -512⟩ ⟨256, 512, -512⟩ ⟨512, 256, -128⟩ rfl rfl rfl).1
      (Or.inr (Or.inr (by decide))),
   (near_plane_rejection fixedKernel sampleCamera sampleLight identityMat visibleVerts sampleFace []
      ⟨256, 256, -512⟩ ⟨256, 512, -512⟩ ⟨512, 256, -512⟩ rfl rfl rfl).2
      { vert0 := ⟨1, 1⟩, vert1 := ⟨1, 2⟩, vert2 := ⟨2, 1⟩, color := 32767, centroidZ := -512 }
      rfl⟩

/-- C9 as stated fails: the face over `leftEdgeVerts` passes culling and the
    near/far tests, its integer screen vertices are `(0,1)`, `(-2,1)`, `(-1,2)`
    (not all three left of the canvas, nor outside any other edge), yet it is not
    emitted, because the test is made on the fixed-point coordinates
    `-0.5`, `-2.0`, `-1.0`, which are all negative. -/
theorem straddling_face_rejected :
    fixedKernel.vecDot
        (fixedKernel.vecCross
          (fixedKernel.vecSub ⟨-512, 256, -512⟩ ⟨-128, 256, -512⟩)
          (fixedKernel.vecSub ⟨-256, 512, -512⟩ ⟨-128, 256, -512⟩))
        ⟨-128, 256, -512⟩ = 768 ∧
    (leftEdgeVerts.all fun v =>
      decide (neg32 sampleCamera.far ≤ v.z) && decide (v.z ≤ neg32 sampleCamera.near)) = true ∧
    leftEdgeVerts.map (fun v => toRasterPoint (fixedKernel.vecTransform sampleCamera.perspMat v))
      = [⟨0, 1⟩, ⟨-2, 1⟩, ⟨-1, 2⟩] ∧
    processFace fixedKernel sampleCamera sampleLight identityMat leftEdgeVerts sampleFace []
      = .ok [] := by
  refine ⟨?_, ?_, ?_, ?_⟩ <;> rfl

/-- C9 amended (off-canvas trivial reject).  For a canvas of `w > 0` by `h > 0`
    pixels, with `cam->canvasWidth <= w * FIX_SCALE` and
    `cam->canvasHeight <= h * FIX_SCALE` (the member holds the pixel count or its
    fixed-point form): a face whose three integer screen vertices all have
    `x < 0`, or all `x >= w`, or all `y < 0`, or all `y >= h` appends nothing.
    The test itself is made on the projected fixed-point coordinates: a face
    for which it fires appends nothing, and a face that passed culling and the
    near/far tests and for which it does not fire is appended when the buffer
    has room. -/
theorem off_canvas_reject (K : MathKernel) (cam : Camera) (lightDir : Vec3)
    (rot : List FIXED) (verts : List Vec3) (face : Face) (buf : List RasterTriangle)
    (v0 v1 v2 : Vec3) (h0 : verts[face.vertexIndex0]? = some v0)
    (h1 : verts[face.vertexIndex1]? = some v1) (h2 : verts[face.vertexIndex2]? = some v2)
    (w h : Int) (hw : 0 < w) (hh : 0 < h) (hcw : cam.canvasWidth ≤ w * FIX_SCALE)
    (hch : cam.canvasHeight ≤ h * FIX_SCALE) :
    (((toRasterPoint (K.vecTransform cam.perspMat v0)).x < 0 ∧
        (toRasterPoint (K.vecTransform cam.perspMat v1)).x < 0 ∧
        (toRasterPoint (K.vecTransform cam.perspMat v2)).x < 0) ∨
      (w ≤ (toRasterPoint (K.vecTransform cam.perspMat v0)).x ∧
        w ≤ (toRasterPoint (K.vecTransform cam.perspMat v1)).x ∧
        w ≤ (toRasterPoint (K.vecTransform cam.perspMat v2)).x) ∨
      ((toRasterPoint (K.vecTransform cam.perspMat v0)).y < 0 ∧
        (toRasterPoint (K.vecTransform cam.perspMat v1)).y < 0 ∧
        (toRasterPoint (K.vecTransform cam.perspMat v2)).y < 0) ∨
      (h ≤ (toRasterPoint (K.vecTransform cam.perspMat v0)).y ∧
        h ≤ (toRasterPoint (K.vecTransform cam.perspMat v1)).y ∧
        h ≤ (toRasterPoint (K.vecTransform cam.perspMat v2)).y) →
      processFace K cam lightDir rot verts face buf = .ok buf) ∧
    (offCanvas cam (K.vecTransform cam.perspMat v0) (K.vecTransform cam.perspMat v1)
        (K.vecTransform cam.perspMat v2) = true →
      processFace K cam lightDir rot verts face buf = .ok buf) ∧
    (K.vecDot (K.vecCross (K.vecSub v1 v0) (K.vecSub v2 v0)) v0 > 0 →
      v0.z ≤ neg32 cam.near ∧ v1.z ≤ neg32 cam.near ∧ v2.z ≤ neg32 cam.near →
      farReject cam v0 v1 v2 = false →
      offCanvas cam (K.vecTransform cam.perspMat v0) (K.vecTransform cam.perspMat v1)
        (K.vecTransform cam.perspMat v2) = false →
      buf.length < DRAW_MAX_TRIANGLES →
      processFace K cam lightDir rot verts face buf
        = .ok (buf ++ [emittedTriangle K cam lightDir rot v0 v1 v2 face])) := by
  rw [processFace_eq K cam lightDir rot verts face buf v0 v1 v2 h0 h1 h2]
  refine ⟨?_, processTri_offCanvas K cam lightDir rot v0 v1 v2 face buf,
    processTri_emitted K cam lightDir rot v0 v1 v2 face buf⟩
  intro hint
  apply processTri_offCanvas
  simp only [offCanvas, Bool.or_eq_true, Bool.and_eq_true, decide_eq_true_eq, ge_iff_le]
  simp only [toRasterPoint] at hint
  rcases hint with ⟨a, b, c⟩ | ⟨a, b, c⟩ | ⟨a, b, c⟩ | ⟨a, b, c⟩
  · exact Or.inl (Or.inl (Or.inl ⟨⟨fx2int_neg _ a, fx2int_neg _ b⟩, fx2int_neg _ c⟩))
  · exact Or.inl (Or.inl (Or.inr ⟨⟨le_trans hcw (le_fx2int _ w hw a),
      le_trans hcw (le_fx2int _ w hw b)⟩, le_trans hcw (le_fx2int _ w hw c)⟩))
  · exact Or.inl (Or.inr ⟨⟨fx2int_neg _ a, fx2int_neg _ b⟩, fx2int_neg _ c⟩)
  · exact Or.inr ⟨⟨le_trans hch (le_fx2int _ h hh a), le_trans hch (le_fx2int _ h hh b)⟩,
      le_trans hch (le_fx2int _ h hh c)⟩

/-- Witness of `off_canvas_reject` on the 160x128 test canvas: a face wholly left
    of the canvas is skipped, the face of `leftEdgeVerts` (fixed-point x all
    negative) is skipped, and a face on the canvas is appended. -/
theorem off_canvas_reject_witness :
    processFace fixedKernel sampleCamera sampleLight identityMat leftOfCanvasVerts
      (reverseWinding sampleFace) [] = .ok [] ∧
    processFace fixedKernel sampleCamera sampleLight identityMat leftEdgeVerts sampleFace []
      = .ok [] ∧
    processFace fixedKernel sampleCamera sampleLight identityMat visibleVerts sampleFace []
      = .ok ([] ++ [emittedTriangle fixedKernel sampleCamera sampleLight identityMat
          ⟨256, 256, -512⟩ ⟨256, 512, -512⟩ ⟨512, 256, -512⟩ sampleFace]) :=
  ⟨(off_canvas_reject fixedKernel sampleCamera sampleLight identityMat leftOfCanvasVerts
      (reverseWinding sampleFace) [] ⟨-512, 256, -512⟩ ⟨-768, 512, -512⟩ ⟨-1024, 256, -512⟩
      rfl rfl rfl 160 128 (by decide) (by decide) (by decide) (by decide)).1
      (Or.inl (by decide)),
   (off_canvas_reject fixedKernel sampleCamera sampleLight identityMat leftEdgeVerts
      sampleFace [] ⟨-128, 256, -512⟩ ⟨-512, 256, -512⟩ ⟨-256, 512, -512⟩
      rfl rfl rfl 160 128 (by decide) (by decide) (by decide) (by decide)).2.1 rfl,
   (off_canvas_reject fixedKernel sampleCamera sampleLight identityMat visibleVerts
      sampleFace [] ⟨256, 256, -512⟩ ⟨256, 512, -512⟩ ⟨512, 256, -512⟩
      rfl rfl rfl 160 128 (by decide) (by decide) (by decide) (by decide)).2.2
      (by decide) (by decide) rfl rfl (by decide)⟩

/-! ## The depth sort -/

theorem wrap32_of_range (v : Int) (h1 : -2147483648 ≤ v) (h2 : v ≤ 2147483647) :
    wrap32 v = v := by
  unfold wrap32
  omega

theorem orderedInsertBy_perm {α : Type} (cmp : α → α → Int) (a : α) (l : List α) :
    (orderedInsertBy cmp a l).Perm (a :: l) := by
  induction l with
  | nil => exact List.Perm.refl _
  | cons b l ih =>
    simp only [orderedInsertBy]
    split
    · exact List.Perm.refl _
    · exact (List.Perm.cons b ih).trans (List.Perm.swap a b l)

theorem qsort_perm {α : Type} (cmp : α → α → Int) (l : List α) : (qsort cmp l).Perm l := by
  induction l with
  | nil => exact List.Perm.refl _
  | cons a l ih =>
    simp only [qsort]
    exact (orderedInsertBy_perm cmp a _).trans (List.Perm.cons a ih)

theorem orderedInsertBy_sorted (a : RasterTriangle) (l : List RasterTriangle)
    (hcmp : ∀ b ∈ l, (triangleDepthCmp a b ≤ 0 ↔ a.centroidZ ≤ b.centroidZ))
    (hl : l.Pairwise (fun x y => x.centroidZ ≤ y.centroidZ)) :
    (orderedInsertBy triangleDepthCmp a l).Pairwise (fun x y => x.centroidZ ≤ y.centroidZ) := by
  induction l with
  | nil => simp [orderedInsertBy]
  | cons b l ih =>
    have hbl := List.pairwise_cons.mp hl
    simp only [orderedInsertBy]
    split
    · rename_i hle
      have hab : a.centroidZ ≤ b.centroidZ := (hcmp b (List.mem_cons_self _ _)).mp hle
      refine List.pairwise_cons.mpr ⟨?_, hl⟩
      intro c hc
      rcases List.mem_cons.mp hc with rfl | hc
      · exact hab
      · exact le_trans hab (hbl.1 c hc)
    · rename_i hle
      have hba : b.centroidZ ≤ a.centroidZ := by
        have : ¬ a.centroidZ ≤ b.centroidZ := fun h =>
          hle ((hcmp b (List.mem_cons_self _ _)).mpr h)
        exact le_of_lt (not_le.mp this)
      refine List.pairwise_cons.mpr ⟨?_, ih (fun c hc => hcmp c (List.mem_cons_of_mem _ hc)) hbl.2⟩
      intro c hc
      rcases List.mem_cons.mp ((orderedInsertBy_perm triangleDepthCmp a l).mem_iff.mp hc)
        with rfl | hc
      · exact hba
      · exact hbl.1 c hc

theorem qsort_sorted (l : List RasterTriangle)
    (hrange : ∀ a ∈ l, ∀ b ∈ l, -2147483648 ≤ a.centroidZ - b.centroidZ ∧
      a.centroidZ - b.centroidZ ≤ 2147483647) :
    (qsort triangleDepthCmp l).Pairwise (fun x y => x.centroidZ ≤ y.centroidZ) := by
  induction l with
  | nil => simp [qsort]
  | cons a l ih =>
    simp only [qsort]
    apply orderedInsertBy_sorted
    · intro b hb
      have hbl : b ∈ l := (qsort_perm triangleDepthCmp l).mem_iff.mp hb
      have hr := hrange a (List.mem_cons_self _ _) b (List.mem_cons_of_mem _ hbl)
      simp only [triangleDepthCmp, wrap32_of_range _ hr.1 hr.2]
      exact sub_nonpos
    · exact ih (fun x hx y hy =>
        hrange x (List.mem_cons_of_mem _ hx) y (List.mem_cons_of_mem _ hy))

/-- C6 as stated fails: the buffer with depths `2147483647` and `-2` (both signed
    32-bit values) is left in that order by the sort step, because the
    comparator's difference wraps around: it reports the first as smaller
    (negative result) and, asked the other way round, the second as greater. -/
theorem depth_sort_wraps :
    ¬ DepthOrdered (sortStep [depthTri 2147483647, depthTri (-2)]) ∧
    (sortStep [depthTri 2147483647, depthTri (-2)]).map (fun t => t.centroidZ)
      = [2147483647, -2] ∧
    triangleDepthCmp (depthTri 2147483647) (depthTri (-2)) = -2147483647 ∧
    triangleDepthCmp (depthTri (-2)) (depthTri 2147483647) = 2147483647 := by
  refine ⟨?_, by rfl, by rfl, by rfl⟩
  intro h
  have h01 := h 0 (by decide)
  revert h01
  decide

/-- C6 amended (depth order): for every buffer in which the difference of any two
    `centroidZ` values fits a signed 32-bit integer, the buffer after the sort
    step has `centroidZ[i] <= centroidZ[i+1]` for every adjacent pair and is a
    permutation of the emitted triangles. -/
theorem depth_sort_ordered (buf : List RasterTriangle)
    (hrange : ∀ a ∈ buf, ∀ b ∈ buf, -2147483648 ≤ a.centroidZ - b.centroidZ ∧
      a.centroidZ - b.centroidZ ≤ 2147483647) :
    DepthOrdered (sortStep buf) ∧ (sortStep buf).Perm buf := by
  refine ⟨?_, qsort_perm triangleDepthCmp buf⟩
  intro i hi
  exact List.pairwise_iff_get.mp (qsort_sorted buf hrange) ⟨i, Nat.lt_of_succ_lt hi⟩
    ⟨i + 1, hi⟩ (by simp [Fin.lt_def])

/-- Witness of `depth_sort_ordered`: three depths inside the near/far range. -/
theorem depth_sort_ordered_witness :
    DepthOrdered (sortStep [depthTri (-512), depthTri (-2048), depthTri (-1024)]) ∧
    (sortStep [depthTri (-512), depthTri (-2048), depthTri (-1024)]).Perm
      [depthTri (-512), depthTri (-2048), depthTri (-1024)] :=
  depth_sort_ordered [depthTri (-512), depthTri (-2048), depthTri (-1024)] (by decide)

/-! ## The instance pool: release and stable references -/

theorem addWith_ok_inv (pool pool1 : ModelInstancePool) (a : AddArgs) (c : Nat)
    (h : addWith pool a = .ok (pool1, c)) :
    ∃ s p, pool.firstAvailable = some c ∧ pool.instances[c]? = some s ∧ a.pos = some p ∧
      pool1 = { pool with
        firstAvailable := s.__next
        instances := pool.instances.set c
          { isEmpty := false, mod := a.model, pos := p, yaw := a.yaw, pitch := a.pitch,
            roll := a.roll, scale := a.scale, shading := a.shading, __next := s.__next }
        instanceCount := pool.instanceCount + 1 } := by
  simp only [addWith, modelInstanceAdd] at h
  split at h
  · cases h
  · rename_i new hfa
    split at h
    · cases h
    · split at h
      · cases h
      · rename_i slot hslot
        split at h
        · cases h
        · split at h
          · cases h
          · rename_i p hp
            injection h with h
            injection h with h1 h2
            subst h2
            exact ⟨slot, p, hfa, hslot, hp, h1.symm⟩

theorem remove_ok_inv (pool pool1 : ModelInstancePool) (i : Nat) (r : Int)
    (h : modelInstanceRemove pool (some i) = .ok (pool1, r)) :
    ∃ slot, pool.instances[i]? = some slot ∧
      pool1 = { pool with
        instances := pool.instances.set i
          { slot with isEmpty := true, __next := pool.firstAvailable }
        firstAvailable := some i
        instanceCount := pool.instanceCount - 1 } := by
  simp only [modelInstanceRemove] at h
  split at h
  · cases h
  · split at h
    · cases h
    · rename_i slot hslot
      injection h with h
      injection h with h1 h2
      exact ⟨slot, hslot, h1.symm⟩

/-- C11 (release is LIFO): on a pool with `0 < instanceCount <= POOL_CAPACITY`,
    releasing a slot `s` of the buffer marks it free, makes it the head of the
    free list with `__next` equal to the previous head, lowers `instanceCount` by
    one and returns the new count; the acquire that follows returns `s` again
    and restores the previous `instanceCount` and the previous head. -/
theorem release_is_lifo (pool : ModelInstancePool) (s : Nat) (slot : ModelInstance)
    (a : AddArgs) (p : Vec3) (hpos : pool.instanceCount > 0)
    (hle : pool.instanceCount ≤ pool.POOL_CAPACITY) (hslot : pool.instances[s]? = some slot)
    (hocc : slot.isEmpty = false) (hp : a.pos = some p) :
    ∃ pool1, modelInstanceRemove pool (some s) = .ok (pool1, pool.instanceCount - 1) ∧
      pool1.firstAvailable = some s ∧
      (∃ t, pool1.instances[s]? = some t ∧ t.isEmpty = true ∧
        t.__next = pool.firstAvailable) ∧
      pool1.instanceCount = pool.instanceCount - 1 ∧
      ∃ pool2, addWith pool1 a = .ok (pool2, s) ∧
        pool2.instanceCount = pool.instanceCount ∧
        pool2.firstAvailable = pool.firstAvailable ∧
        (∃ u, pool2.instances[s]? = some u ∧ u.isEmpty = false) := by
  have _ := hocc
  have hs : s < pool.instances.length := (List.getElem?_eq_some_iff.mp hslot).1
  have hget : (pool.instances.set s
      { slot with isEmpty := true, __next := pool.firstAvailable })[s]?
      = some { slot with isEmpty := true, __next := pool.firstAvailable } := by
    simp [hs]
  refine ⟨_, remove_eq pool s slot hpos hslot, rfl, ⟨_, hget, rfl, rfl⟩, rfl, ?_⟩
  refine ⟨_, addWith_eq _ a s { slot with isEmpty := true, __next := pool.firstAvailable } p
    rfl ?_ hget rfl hp, ?_, rfl, ?_⟩
  · show pool.instanceCount - 1 < pool.POOL_CAPACITY
    omega
  · show pool.instanceCount - 1 + 1 = pool.instanceCount
    omega
  · refine ⟨⟨false, a.model, p, a.yaw, a.pitch, a.roll, a.scale, a.shading,
      pool.firstAvailable⟩, ?_, rfl⟩
    show ((pool.instances.set s _).set s _)[s]? = _
    simp [hs]

/-- Witness of `release_is_lifo`: a full two-slot pool, slot 1 released and
    acquired again. -/
theorem release_is_lifo_witness :
    ∃ pool1,
      modelInstanceRemove
        { POOL_CAPACITY := 2, instances := [blankInstance, blankInstance],
          firstAvailable := none, instanceCount := 2 } (some 1) = .ok (pool1, 2 - 1) ∧
      pool1.firstAvailable = some 1 ∧
      (∃ t, pool1.instances[1]? = some t ∧ t.isEmpty = true ∧ t.__next = none) ∧
      pool1.instanceCount = 2 - 1 ∧
      ∃ pool2, addWith pool1 sampleArgs = .ok (pool2, 1) ∧
        pool2.instanceCount = 2 ∧ pool2.firstAvailable = none ∧
        (∃ u, pool2.instances[1]? = some u ∧ u.isEmpty = false) :=
  release_is_lifo
    { POOL_CAPACITY := 2, instances := [blankInstance, blankInstance],
      firstAvailable := none, instanceCount := 2 }
    1 blankInstance sampleArgs ⟨256, 0, -512⟩ (by decide) (by decide) rfl rfl rfl

/-- C12 (stable references): a successful `modelInstanceAdd` or
    `modelInstanceRemove` leaves `POOL_CAPACITY` and the number of slots as they
    were and changes no slot other than the one it hands out or takes back:
    every other slot holds the same value (same `isEmpty`, model, position, yaw,
    pitch, roll, scale, shading) at the same index. -/
theorem stable_references (pool pool1 : ModelInstancePool) :
    (∀ (a : AddArgs) (c : Nat), addWith pool a = .ok (pool1, c) →
      pool1.POOL_CAPACITY = pool.POOL_CAPACITY ∧
      pool1.instances.length = pool.instances.length ∧
      ∀ j, j ≠ c → pool1.instances[j]? = pool.instances[j]?) ∧
    (∀ (i : Nat) (r : Int), modelInstanceRemove pool (some i) = .ok (pool1, r) →
      pool1.POOL_CAPACITY = pool.POOL_CAPACITY ∧
      pool1.instances.length = pool.instances.length ∧
      ∀ j, j ≠ i → pool1.instances[j]? = pool.instances[j]?) := by
  constructor
  · intro a c h
    obtain ⟨s, p, _, _, _, rfl⟩ := addWith_ok_inv pool pool1 a c h
    refine ⟨rfl, by simp, ?_⟩
    intro j hj
    show (pool.instances.set c _)[j]? = _
    rw [List.getElem?_set_ne (Ne.symm hj)]
  · intro i r h
    obtain ⟨slot, _, rfl⟩ := remove_ok_inv pool pool1 i r h
    refine ⟨rfl, by simp, ?_⟩
    intro j hj
    show (pool.instances.set i _)[j]? = _
    rw [List.getElem?_set_ne (Ne.symm hj)]

/-- Witness of `stable_references`: on a full two-slot pool, releasing slot 0
    and acquiring again both leave slot 1 as it was. -/
theorem stable_references_witness :
    modelInstanceRemove fullPool (some 0) = .ok (releasedPool, 1) ∧
    (releasedPool.POOL_CAPACITY = fullPool.POOL_CAPACITY ∧
      releasedPool.instances.length = fullPool.instances.length ∧
      ∀ j, j ≠ 0 → releasedPool.instances[j]? = fullPool.instances[j]?) ∧
    addWith releasedPool sampleArgs = .ok (reacquiredPool, 0) ∧
    (reacquiredPool.POOL_CAPACITY = releasedPool.POOL_CAPACITY ∧
      reacquiredPool.instances.length = releasedPool.instances.length ∧
      ∀ j, j ≠ 0 → reacquiredPool.instances[j]? = releasedPool.instances[j]?) :=
  ⟨rfl, (stable_references fullPool releasedPool).2 0 1 rfl, rfl,
   (stable_references releasedPool reacquiredPool).1 sampleArgs 0 rfl⟩

/-! ## The triangle buffer -/

theorem store_ok (buf ts : List RasterTriangle)
    (h : (buf ++ ts).length ≤ DRAW_MAX_TRIANGLES) : store buf ts = .ok (buf ++ ts) := by
  unfold store
  rw [if_pos h]

theorem store_full (buf ts : List RasterTriangle)
    (h : ¬ (buf ++ ts).length ≤ DRAW_MAX_TRIANGLES) : store buf ts = .error bufferFullMsg := by
  unfold store
  rw [if_neg h]

theorem store_nil (buf : List RasterTriangle) (h : buf.length ≤ DRAW_MAX_TRIANGLES) :
    store buf [] = .ok buf := by
  rw [store_ok buf [] (by simpa using h)]
  simp

theorem store_then (f : List RasterTriangle → Except String (List RasterTriangle))
    (buf ts1 ts2 : List RasterTriangle)
    (hf : ∀ b, b.length ≤ DRAW_MAX_TRIANGLES → f b = store b ts2) :
    (match store buf ts1 with
      | .error e => .error e
      | .ok b => f b) = store buf (ts1 ++ ts2) := by
  by_cases h : (buf ++ ts1).length ≤ DRAW_MAX_TRIANGLES
  · rw [store_ok buf ts1 h]
    show f (buf ++ ts1) = _
    rw [hf _ h]
    unfold store
    rw [List.append_assoc]
  · have h2 : ¬ (buf ++ (ts1 ++ ts2)).length ≤ DRAW_MAX_TRIANGLES := by
      simp only [List.length_append] at h ⊢
      omega
    rw [store_full buf ts1 h, store_full buf (ts1 ++ ts2) h2]

theorem processTri_store (K : MathKernel) (cam : Camera) (lightDir : Vec3)
    (rot : List FIXED) (v0 v1 v2 : Vec3) (face : Face) (buf : List RasterTriangle)
    (hbuf : buf.length ≤ DRAW_MAX_TRIANGLES) :
    processTri K cam lightDir rot v0 v1 v2 face buf
      = store buf (if survives K cam v0 v1 v2 then
          [emittedTriangle K cam lightDir rot v0 v1 v2 face] else []) := by
  by_cases hdot : K.vecDot (K.vecCross (K.vecSub v1 v0) (K.vecSub v2 v0)) v0 ≤ 0
  · rw [processTri_culled K cam lightDir rot v0 v1 v2 face buf hdot]
    have : ¬ K.vecDot (K.vecCross (K.vecSub v1 v0) (K.vecSub v2 v0)) v0 > 0 := not_lt.mpr hdot
    simp [survives, this, store_nil buf hbuf]
  · by_cases hb : v0.z > neg32 cam.near ∨ v1.z > neg32 cam.near ∨ v2.z > neg32 cam.near
    · rw [processTri_behind K cam lightDir rot v0 v1 v2 face buf hb]
      have hb1 : (BEHIND_CAM cam v0 || BEHIND_CAM cam v1 || BEHIND_CAM cam v2) = true := by
        simp only [BEHIND_CAM, Bool.or_eq_true, decide_eq_true_eq]
        tauto
      simp [survives, hb1, store_nil buf hbuf]
    · have hz : v0.z ≤ neg32 cam.near ∧ v1.z ≤ neg32 cam.near ∧ v2.z ≤ neg32 cam.near := by
        simp only [not_or, not_lt, gt_iff_lt] at hb
        exact hb
      have hb1 : (BEHIND_CAM cam v0 || BEHIND_CAM cam v1 || BEHIND_CAM cam v2) = false := by
        simp only [BEHIND_CAM, Bool.or_eq_false_iff, decide_eq_false_iff_not, not_lt, gt_iff_lt]
        exact ⟨⟨hz.1, hz.2.1⟩, hz.2.2⟩
      have hd : K.vecDot (K.vecCross (K.vecSub v1 v0) (K.vecSub v2 v0)) v0 > 0 :=
        not_le.mp hdot
      cases hfar : farReject cam v0 v1 v2 with
      | true =>
        simp [processTri, survives, hdot, hb1, hfar, store_nil buf hbuf]
      | false =>
        cases hoff : offCanvas cam (K.vecTransform cam.perspMat v0)
            (K.vecTransform cam.perspMat v1) (K.vecTransform cam.perspMat v2) with
        | true =>
          rw [processTri_offCanvas K cam lightDir rot v0 v1 v2 face buf hoff]
          simp [survives, hoff, store_nil buf hbuf]
        | false =>
          by_cases hroom : buf.length < DRAW_MAX_TRIANGLES
          · rw [processTri_emitted K cam lightDir rot v0 v1 v2 face buf hd hz hfar hoff hroom]
            have : (buf ++ [emittedTriangle K cam lightDir rot v0 v1 v2 face]).length
                ≤ DRAW_MAX_TRIANGLES := by
              simp only [List.length_append, List.length_singleton]
              omega
            have hsv : survives K cam v0 v1 v2 = true := by simp [survives, hd, hb1, hfar, hoff]
            rw [hsv, if_pos rfl, store_ok _ _ this]
          · have : ¬ (buf ++ [emittedTriangle K cam lightDir rot v0 v1 v2 face]).length
                ≤ DRAW_MAX_TRIANGLES := by
              simp only [List.length_append, List.length_singleton]
              omega
            have hsv : survives K cam v0 v1 v2 = true := by simp [survives, hd, hb1, hfar, hoff]
            rw [hsv, if_pos rfl, store_full _ _ this]
            simp [processTri, hdot, hb1, hfar, hoff, hz, hroom, bufferFullMsg]

theorem processFace_store (K : MathKernel) (cam : Camera) (lightDir : Vec3)
    (rot : List FIXED) (verts : List Vec3) (face : Face) (buf ts : List RasterTriangle)
    (h : faceTriangles K cam lightDir rot verts face = some ts)
    (hbuf : buf.length ≤ DRAW_MAX_TRIANGLES) :
    processFace K cam lightDir rot verts face buf = store buf ts := by
  cases h0 : verts[face.vertexIndex0]? with
  | none => simp [faceTriangles, h0] at h
  | some v0 =>
    cases h1 : verts[face.vertexIndex1]? with
    | none => simp [faceTriangles, h0, h1] at h
    | some v1 =>
      cases h2 : verts[face.vertexIndex2]? with
      | none => simp [faceTriangles, h0, h1, h2] at h
      | some v2 =>
        simp only [faceTriangles, h0, h1, h2] at h
        injection h with h
        rw [processFace_eq K cam lightDir rot verts face buf v0 v1 v2 h0 h1 h2, ← h]
        exact processTri_store K cam lightDir rot v0 v1 v2 face buf hbuf

theorem faceLoop_store (K : MathKernel) (cam : Camera) (lightDir : Vec3)
    (rot : List FIXED) (verts : List Vec3) (faces : List Face) (nums : List Nat) :
    ∀ (ts buf : List RasterTriangle),
      collect (fun faceNum =>
        match faces[faceNum]? with
        | none => none
        | some face => faceTriangles K cam lightDir rot verts face) nums = some ts →
      buf.length ≤ DRAW_MAX_TRIANGLES →
      faceLoop K cam lightDir rot verts faces nums buf = store buf ts := by
  induction nums with
  | nil =>
    intro ts buf h hbuf
    simp only [collect] at h
    injection h with h
    subst h
    simp only [faceLoop]
    exact (store_nil buf hbuf).symm
  | cons n rest ih =>
    intro ts buf h hbuf
    simp only [collect] at h
    split at h
    · rename_i x y hx hy
      injection h with h
      subst h
      cases hface : faces[n]? with
      | none => simp [hface] at hx
      | some face =>
        simp only [hface] at hx
        simp only [faceLoop, hface]
        rw [processFace_store K cam lightDir rot verts face buf x hx hbuf]
        exact store_then (faceLoop K cam lightDir rot verts faces rest) buf x y
          (fun b hb => ih y b hy hb)
    · cases h

theorem processInstance_store (K : MathKernel) (cam : Camera) (lightDir : Vec3)
    (inst : ModelInstance) (ts buf : List RasterTriangle)
    (h : instanceTriangles K cam lightDir inst = some ts)
    (hbuf : buf.length ≤ DRAW_MAX_TRIANGLES) :
    processInstance K cam lightDir inst buf = store buf ts := by
  unfold instanceTriangles at h
  unfold processInstance
  split at h
  · cases h
  · rename_i vs hvs
    simp only [hvs]
    exact faceLoop_store K cam lightDir _ _ inst.mod.faces _ ts buf h hbuf

theorem emitTriangles_store (K : MathKernel) (cam : Camera) (lightDir : Vec3)
    (insts : List ModelInstance) :
    ∀ (ts buf : List RasterTriangle), frameTriangles K cam lightDir insts = some ts →
      buf.length ≤ DRAW_MAX_TRIANGLES →
      emitTriangles K cam lightDir insts buf = store buf ts := by
  induction insts with
  | nil =>
    intro ts buf h hbuf
    simp only [frameTriangles, collect] at h
    injection h with h
    subst h
    simp only [emitTriangles]
    exact (store_nil buf hbuf).symm
  | cons inst rest ih =>
    intro ts buf h hbuf
    simp only [frameTriangles, collect] at h
    split at h
    · rename_i x y hx hy
      injection h with h
      subst h
      simp only [emitTriangles]
      rw [processInstance_store K cam lightDir inst x buf hx hbuf]
      exact store_then (emitTriangles K cam lightDir rest) buf x y
        (fun b hb => ih y b hy hb)
    · cases h

/-- C13 (triangle-buffer capacity): for a frame whose vertex and face indices
    are valid, with `ts` the triangles of the faces that survive culling,
    near/far rejection and off-canvas rejection (one per surviving face, in
    order): when more than `DRAW_MAX_TRIANGLES = 256` faces survive the frame
    fails the buffer assertion, and otherwise the emitted buffer is exactly `ts`
    (nothing dropped, count equal to the number of survivors); an emitted buffer
    never holds more than 256 entries. -/
theorem triangle_buffer_capacity (K : MathKernel) (cam : Camera) (lightDir : Vec3)
    (insts : List ModelInstance) (ts : List RasterTriangle)
    (h : frameTriangles K cam lightDir insts = some ts) :
    DRAW_MAX_TRIANGLES = 256 ∧
    (256 < ts.length → emitTriangles K cam lightDir insts [] = .error bufferFullMsg) ∧
    (ts.length ≤ 256 → emitTriangles K cam lightDir insts [] = .ok ts) ∧
    (∀ out, emitTriangles K cam lightDir insts [] = .ok out → out = ts ∧ out.length ≤ 256) := by
  have hs := emitTriangles_store K cam lightDir insts ts [] h (by simp)
  refine ⟨rfl, ?_, ?_, ?_⟩
  · intro hlen
    have : ¬ ([] ++ ts).length ≤ DRAW_MAX_TRIANGLES := by
      simp only [DRAW_MAX_TRIANGLES, List.nil_append]; omega
    rw [hs, store_full [] ts this]
  · intro hlen
    have : ([] ++ ts).length ≤ DRAW_MAX_TRIANGLES := by simpa using hlen
    rw [hs, store_ok [] ts this]
    rfl
  · intro out hout
    rw [hs] at hout
    by_cases hlen : ([] ++ ts).length ≤ DRAW_MAX_TRIANGLES
    · rw [store_ok [] ts hlen] at hout
      injection hout with hout
      subst hout
      exact ⟨rfl, hlen⟩
    · rw [store_full [] ts hlen] at hout
      cases hout

/-! ## The rasterizer: degenerate triangles -/

theorem sortVerts_flat_iff (a b c : RasterPoint) :
    (sortVerts a b c).1.y = (sortVerts a b c).2.2.y ↔ a.y = b.y ∧ b.y = c.y := by
  unfold sortVerts
  dsimp only
  split_ifs <;> constructor <;> intro h <;> simp only [] at * <;> omega

/-- C14 (degenerate triangles): `drawFillTris` skips a triangle, with no scanline
    walked, no `m5_hline` call, no `fxdiv` executed and no assertion failed,
    exactly when its three screen vertices share the same y, whatever their
    order. -/
theorem degenerate_skipped (W H : Int) (tri : RasterTriangle) :
    drawFillTri W H tri = .ok { scanlines := [], hlines := [], divs := [] } ↔
      (tri.vert0.y = tri.vert1.y ∧ tri.vert1.y = tri.vert2.y) := by
  rw [← sortVerts_flat_iff]
  constructor
  · intro h
    by_contra hne
    unfold drawFillTri at h
    simp only [hne, if_false] at h
    split at h
    · cases h
    · split at h <;>
      · injection h with h
        injection h with _ _ h3
        cases h3
  · intro h
    unfold drawFillTri
    simp only [h, if_true]

/-! ## Flat shading -/

theorem fxmul_int2fx_31 (α : Int) (h0 : 0 ≤ α) (h1 : α ≤ 270600) :
    fxmul α (int2fx 31) = α * 31 := by
  have h31 : int2fx 31 = 7936 := by decide
  rw [h31]
  show wrap32 (α * 7936) >>> (8 : Nat) = α * 31
  rw [wrap32_of_range (α * 7936) (by omega) (by omega), Int.shiftRight_eq_div_pow]
  norm_num
  omega

theorem shade_value (v : Int) (h0 : 0 ≤ v) (h1 : v < 65536) :
    toCOLOR (max (2 : Int) ((toCOLOR v : Nat) : Int)) = (max 2 v).toNat := by
  unfold toCOLOR
  have e1 : v % 65536 = v := Int.emod_eq_of_lt h0 h1
  have e2 : ((v.toNat : Nat) : Int) = v := Int.toNat_of_nonneg h0
  have e3 : (max 2 v) % 65536 = max 2 v := Int.emod_eq_of_lt (by omega) (by omega)
  rw [e1, e2, e3]

theorem rgb15_grey_channels (s : Nat) (h2 : 2 ≤ s) (h31 : s ≤ 31) :
    RGB15 s s s % 32 = s ∧ RGB15 s s s / 32 % 32 = s ∧ RGB15 s s s / 1024 % 32 = s := by
  interval_cases s <;> decide

/-- C16 as stated fails.  With the light direction `(0, 0, 270601)` and the face
    normal `(0, 0, 1.0)`, `lightAlpha = 270601 > 0`.  The product
    `270601 * 7936` leaves the 32-bit range: `fxmul` returns `-8388585` and
    `fx2int` gives `-32767`.  The claimed `s = max(2, -32767) = 2` gives the
    colour `RGB15(2, 2, 2) = 0x0842`; the code stores `-32767` in the 16-bit
    `shade` (`32769`), `MAX(2, shade)` keeps it, and the colour is `0x8421`.  At
    `lightAlpha = 270600` code and formula still agree (`s = 32767`). -/
theorem shade_formula_wraps :
    fixedKernel.vecDot ⟨0, 0, 270601⟩
      (fixedKernel.vecTransformed identityMat sampleFace.normal) = 270601 ∧
    fxmul 270601 (int2fx 31) = -8388585 ∧
    fx2int (fxmul 270601 (int2fx 31)) = -32767 ∧
    (max 2 (fx2int (fxmul 270601 (int2fx 31)))).toNat = 2 ∧
    toCOLOR (max (2 : Int) (toCOLOR (fx2int (fxmul 270601 (int2fx 31))) : Int)) = 32769 ∧
    faceColor fixedKernel ⟨0, 0, 270601⟩ identityMat sampleFace = 33825 ∧
    RGB15 (max 2 (fx2int (fxmul 270601 (int2fx 31)))).toNat
      (max 2 (fx2int (fxmul 270601 (int2fx 31)))).toNat
      (max 2 (fx2int (fxmul 270601 (int2fx 31)))).toNat = 2114 ∧
    faceColor fixedKernel ⟨0, 0, 270601⟩ identityMat sampleFace
      ≠ RGB15 (max 2 (fx2int (fxmul 270601 (int2fx 31)))).toNat
          (max 2 (fx2int (fxmul 270601 (int2fx 31)))).toNat
          (max 2 (fx2int (fxmul 270601 (int2fx 31)))).toNat ∧
    faceColor fixedKernel ⟨0, 0, 270600⟩ identityMat sampleFace
      = RGB15 (max 2 (fx2int (fxmul 270600 (int2fx 31)))).toNat
          (max 2 (fx2int (fxmul 270600 (int2fx 31)))).toNat
          (max 2 (fx2int (fxmul 270600 (int2fx 31)))).toNat := by
  refine ⟨rfl, rfl, rfl, rfl, rfl, rfl, rfl, by decide, rfl⟩

/-- C16 amended (flat shading).  With
    `lightAlpha = vecDot(lightDir, rotated face normal)`: the colour of an
    emitted triangle is the value of the lighting block and does not depend on
    the face's `color`; it is `RGB15(2, 2, 2)` when `lightAlpha <= 0`; for
    `0 < lightAlpha <= 270600` (beyond which the product in `fxmul` leaves the
    32-bit range) it is `RGB15(s, s, s)` with
    `s = max(2, fx2int(fxmul(lightAlpha, int2fx(31))))`; and for
    `lightAlpha <= 256` (1.0) this `s` satisfies `2 <= s <= 31` and the three
    5-bit channels of the colour all equal `s`. -/
theorem flat_shading (K : MathKernel) (cam : Camera) (lightDir : Vec3) (rot : List FIXED)
    (v0 v1 v2 : Vec3) (face : Face) (lightAlpha : Int)
    (hα : lightAlpha = K.vecDot lightDir (K.vecTransformed rot face.normal)) :
    (emittedTriangle K cam lightDir rot v0 v1 v2 face).color = faceColor K lightDir rot face ∧
    (∀ c : COLOR, faceColor K lightDir rot { face with color := c }
      = faceColor K lightDir rot face) ∧
    (lightAlpha ≤ 0 → faceColor K lightDir rot face = RGB15 2 2 2) ∧
    (0 < lightAlpha → lightAlpha ≤ 270600 →
      faceColor K lightDir rot face
        = RGB15 (max 2 (fx2int (fxmul lightAlpha (int2fx 31)))).toNat
            (max 2 (fx2int (fxmul lightAlpha (int2fx 31)))).toNat
            (max 2 (fx2int (fxmul lightAlpha (int2fx 31)))).toNat) ∧
    (0 < lightAlpha → lightAlpha ≤ 256 →
      2 ≤ (max 2 (fx2int (fxmul lightAlpha (int2fx 31)))).toNat ∧
      (max 2 (fx2int (fxmul lightAlpha (int2fx 31)))).toNat ≤ 31 ∧
      faceColor K lightDir rot face % 32
        = (max 2 (fx2int (fxmul lightAlpha (int2fx 31)))).toNat ∧
      faceColor K lightDir rot face / 32 % 32
        = (max 2 (fx2int (fxmul lightAlpha (int2fx 31)))).toNat ∧
      faceColor K lightDir rot face / 1024 % 32
        = (max 2 (fx2int (fxmul lightAlpha (int2fx 31)))).toNat) := by
  have hformula : 0 < lightAlpha → lightAlpha ≤ 270600 →
      faceColor K lightDir rot face
        = RGB15 (max 2 (fx2int (fxmul lightAlpha (int2fx 31)))).toNat
            (max 2 (fx2int (fxmul lightAlpha (int2fx 31)))).toNat
            (max 2 (fx2int (fxmul lightAlpha (int2fx 31)))).toNat := by
    intro hpos hle
    have hpos1 : K.vecDot lightDir (K.vecTransformed rot face.normal) > 0 := by
      rw [← hα]; exact hpos
    have hv : fx2int (fxmul lightAlpha (int2fx 31)) = lightAlpha * 31 / 256 := by
      rw [fxmul_int2fx_31 lightAlpha (le_of_lt hpos) hle]
      exact Int.tdiv_eq_ediv (by omega) (by decide)
    have hs := shade_value (fx2int (fxmul lightAlpha (int2fx 31)))
      (by rw [hv]; omega) (by rw [hv]; omega)
    simp only [faceColor, hpos1, if_true]
    rw [← hα, hs]
  refine ⟨rfl, fun c => rfl, ?_, hformula, ?_⟩
  · intro hle
    have : ¬ K.vecDot lightDir (K.vecTransformed rot face.normal) > 0 := by
      rw [← hα]; exact not_lt.mpr hle
    simp only [faceColor, this, if_false]
  · intro hpos hle
    have hv : fx2int (fxmul lightAlpha (int2fx 31)) = lightAlpha * 31 / 256 := by
      rw [fxmul_int2fx_31 lightAlpha (le_of_lt hpos) (by omega)]
      exact Int.tdiv_eq_ediv (by omega) (by decide)
    have h2 : 2 ≤ (max 2 (fx2int (fxmul lightAlpha (int2fx 31)))).toNat := by
      rw [hv]; omega
    have h31 : (max 2 (fx2int (fxmul lightAlpha (int2fx 31)))).toNat ≤ 31 := by
      rw [hv]; omega
    rw [hformula hpos (by omega)]
    exact ⟨h2, h31, rgb15_grey_channels _ h2 h31⟩

/-- Witness of `flat_shading`: light and rotated normal both `(0, 0, 1.0)`,
    `lightAlpha = 256`, shade 31, colour `0x7FFF`; and light opposite to the
    normal, `lightAlpha = -256`, shade 2. -/
theorem flat_shading_witness :
    faceColor fixedKernel sampleLight identityMat sampleFace
      = RGB15 (max 2 (fx2int (fxmul 256 (int2fx 31)))).toNat
          (max 2 (fx2int (fxmul 256 (int2fx 31)))).toNat
          (max 2 (fx2int (fxmul 256 (int2fx 31)))).toNat ∧
    (2 ≤ (max 2 (fx2int (fxmul 256 (int2fx 31)))).toNat ∧
      (max 2 (fx2int (fxmul 256 (int2fx 31)))).toNat ≤ 31 ∧
      faceColor fixedKernel sampleLight identityMat sampleFace % 32
        = (max 2 (fx2int (fxmul 256 (int2fx 31)))).toNat ∧
      faceColor fixedKernel sampleLight identityMat sampleFace / 32 % 32
        = (max 2 (fx2int (fxmul 256 (int2fx 31)))).toNat ∧
      faceColor fixedKernel sampleLight identityMat sampleFace / 1024 % 32
        = (max 2 (fx2int (fxmul 256 (int2fx 31)))).toNat) ∧
    faceColor fixedKernel ⟨0, 0, -256⟩ identityMat sampleFace = RGB15 2 2 2 :=
  ⟨(flat_shading fixedKernel sampleCamera sampleLight identityMat ⟨0, 0, 0⟩ ⟨0, 0, 0⟩ ⟨0, 0, 0⟩
      sampleFace 256 rfl).2.2.2.1 (by decide) (by decide),
   (flat_shading fixedKernel sampleCamera sampleLight identityMat ⟨0, 0, 0⟩ ⟨0, 0, 0⟩ ⟨0, 0, 0⟩
      sampleFace 256 rfl).2.2.2.2 (by decide) (by decide),
   (flat_shading fixedKernel sampleCamera ⟨0, 0, -256⟩ identityMat ⟨0, 0, 0⟩ ⟨0, 0, 0⟩ ⟨0, 0, 0⟩
      sampleFace (-256) (by decide)).2.2.1 (by decide)⟩

set_option maxRecDepth 100000 in
theorem crowded_frame :
    frameTriangles fixedKernel sampleCamera sampleLight [crowdedInstance 257]
      = some (List.replicate 257 crowdedTriangle) := by
  rfl

/-- Witness of `triangle_buffer_capacity`: a frame with 2 surviving faces is
    emitted whole, a frame with 257 surviving faces fails the assertion. -/
theorem triangle_buffer_capacity_witness :
    emitTriangles fixedKernel sampleCamera sampleLight [crowdedInstance 2] []
      = .ok (List.replicate 2 crowdedTriangle) ∧
    emitTriangles fixedKernel sampleCamera sampleLight [crowdedInstance 257] []
      = .error bufferFullMsg :=
  ⟨(triangle_buffer_capacity fixedKernel sampleCamera sampleLight [crowdedInstance 2]
      (List.replicate 2 crowdedTriangle) rfl).2.2.1 (by decide),
   (triangle_buffer_capacity fixedKernel sampleCamera sampleLight [crowdedInstance 257]
      (List.replicate 257 crowdedTriangle) crowded_frame).2.1
      (lt_of_lt_of_eq (by decide : 256 < 257) (List.length_replicate 257 crowdedTriangle).symm)⟩

/-! ## The rasterizer: coverage -/

theorem clampX_small (W : Int) (x : Int) (hW : 11 ≤ W) (hx : fx2int x ≤ 10) :
    clampX W x = clampX 11 x := by
  unfold clampX
  omega

/-- C15 as stated fails: on an 11x11 canvas the run widths of the triangle
    `(0,0)`, `(10,0)`, `(5,10)` are, from row 0 to row 9, 10, 8, 8, 6, 6, 4, 4, 2,
    2, 0; the topmost scanline is the widest and the bottom one the narrowest. -/
theorem flat_top_widths :
    (drawFillTri 11 11 flatTopTri).map (fun t => t.hlines.map (fun h => (h.y, h.x2 + 1 - h.x1)))
      = .ok [(0, 10), (1, 8), (2, 8), (3, 6), (4, 6), (5, 4), (6, 4), (7, 2), (8, 2), (9, 0)] := by
  rfl

/-- C15 amended (rasterizer coverage): on every canvas of at least 11x11 pixels
    the triangle `(0,0)`, `(10,0)`, `(5,10)` is filled with one run `[left, right)`
    on each of the rows 0..9, all inside columns 0..10: `[0,10)`, `[1,9)`, `[1,9)`,
    `[2,8)`, `[2,8)`, `[3,7)`, `[3,7)`, `[4,6)`, `[4,6)`, `[5,5)`; the topmost
    scanline has the largest width (the full base width 10) and the widths
    shrink to 0 at the bottom scanline. -/
theorem flat_top_coverage (W H : Int) (hW : 11 ≤ W) (hH : 11 ≤ H) :
    (drawFillTri W H flatTopTri).map (fun t => t.hlines.map runOf)
      = .ok [(0, 0, 10), (1, 1, 9), (2, 1, 9), (3, 2, 8), (4, 2, 8), (5, 3, 7), (6, 3, 7),
             (7, 4, 6), (8, 4, 6), (9, 5, 5)] := by
  have hsort : sortVerts (⟨0, 0⟩ : RasterPoint) ⟨10, 0⟩ ⟨5, 10⟩ = (⟨0, 0⟩, ⟨10, 0⟩, ⟨5, 10⟩) := by
    decide
  have h1 : min (H - 1) 0 = 0 := by omega
  have h2 : min (H - 1) 10 = 10 := by omega
  have hrows : drawFillTri W H flatTopTri = drawFillTri W 11 flatTopTri := by
    unfold drawFillTri
    simp only [flatTopTri, screenTri, hsort, h1, h2]
    rfl
  have hcols : drawFillTri W 11 flatTopTri
      = .ok { scanlines := flatTopScanlines
              hlines := flatTopScanlines.map (hlineOf W 0)
              divs := [(1280, 2560), (-1280, 2560), (-1280, 2560)] } := by
    rfl
  have hclamp : flatTopScanlines.map (hlineOf W 0) = flatTopScanlines.map (hlineOf 11 0) := by
    apply List.map_congr_left
    intro s hs
    have hsmall : ∀ t ∈ flatTopScanlines, fx2int t.xLeft ≤ 10 ∧ fx2int t.xRight ≤ 10 := by
      decide
    simp only [hlineOf, clampX_small W s.xLeft hW (hsmall s hs).1,
      clampX_small W s.xRight hW (hsmall s hs).2]
  rw [hrows, hcols]
  show Except.ok ((flatTopScanlines.map (hlineOf W 0)).map runOf) = _
  rw [hclamp]
  rfl

/-- Witness of `flat_top_coverage`: the 160x128 canvas. -/
theorem flat_top_coverage_witness :
    (drawFillTri 160 128 flatTopTri).map (fun t => t.hlines.map runOf)
      = .ok [(0, 0, 10), (1, 1, 9), (2, 1, 9), (3, 2, 8), (4, 2, 8), (5, 3, 7), (6, 3, 7),
             (7, 4, 6), (8, 4, 6), (9, 5, 5)] :=
  flat_top_coverage 160 128 (by decide) (by decide)

/-! ## The rasterizer: wireframe mode, edge assignment, shared edges, clamping -/

/-- C17 as stated fails: a frame with one occupied instance in wireframe mode
    whose single face is visible; the face is emitted and `drawFillTris` makes
    ten `m5_hline` calls for it. -/
theorem wireframe_instance_filled :
    wireInstance.shading = .SHADING_WIREFRAME ∧
    (drawModelInstances fixedKernel 160 128 sampleCamera [wireInstance] sampleLight).map
      (fun ts => ts.map (fun t => t.hlines.map (fun h => (h.x1, h.y, h.x2))))
      = .ok [[(1, 1, 10), (1, 2, 9), (1, 3, 8), (1, 4, 7), (1, 5, 6), (1, 6, 5), (1, 7, 4),
              (1, 8, 3), (1, 9, 2), (1, 10, 1)]] := by
  constructor <;> rfl

theorem emitTriangles_shading (K : MathKernel) (cam : Camera) (lightDir : Vec3)
    (s : PolygonShadingType) (insts : List ModelInstance) :
    ∀ buf, emitTriangles K cam lightDir (insts.map (withShading s)) buf
      = emitTriangles K cam lightDir insts buf := by
  induction insts with
  | nil => intro buf; rfl
  | cons inst rest ih =>
    intro buf
    simp only [List.map, emitTriangles]
    have h : processInstance K cam lightDir (withShading s inst) buf
        = processInstance K cam lightDir inst buf := rfl
    rw [h]
    cases processInstance K cam lightDir inst buf with
    | error e => rfl
    | ok buf1 => exact ih buf1

/-- C17 amended (wireframe mode): `drawWireframeTris` is an empty placeholder
    that draws nothing, and `drawModelInstances` never consults the shading mode:
    whatever mode the instances are given, the frame makes exactly the same
    `fxdiv` and `m5_hline` calls (a wireframe instance is filled like a
    flat-shaded one). -/
theorem shading_mode_ignored (K : MathKernel) (W H : Int) (cam : Camera) (lightDir : Vec3)
    (s : PolygonShadingType) (insts : List ModelInstance) (tris : List RasterTriangle) :
    drawWireframeTris tris = [] ∧
    drawModelInstances K W H cam (insts.map (withShading s)) lightDir
      = drawModelInstances K W H cam insts lightDir := by
  refine ⟨rfl, ?_⟩
  unfold drawModelInstances
  rw [emitTriangles_shading K cam lightDir s insts []]

/-- C18 (left/right edge assignment), evaluated on the code.  For the y-sorted
    triangle `v1 = (0,0)`, `v2 = (5,5)`, `v3 = (20,10)` the middle vertex lies
    left of the long edge (which passes `x = 10` at height 5), but
    `middleLeft = (v2.x <= v1.x)` is false; the long edge is walked as the left
    boundary and on every one of the ten scanlines `xLeft > xRight`. -/
theorem middleLeft_misjudged :
    sortVerts ⟨0, 0⟩ ⟨5, 5⟩ ⟨20, 10⟩ = (⟨0, 0⟩, ⟨5, 5⟩, ⟨20, 10⟩) ∧
    leftOfLongEdge ⟨0, 0⟩ ⟨5, 5⟩ ⟨20, 10⟩ = true ∧
    middleLeft ⟨0, 0⟩ ⟨5, 5⟩ = false ∧
    (drawFillTri 160 128 (screenTri ⟨0, 0⟩ ⟨5, 5⟩ ⟨20, 10⟩)).map
      (fun t => t.scanlines.map (fun s => (s.y, s.xLeft, s.xRight)))
      = .ok [(0, 512, 256), (1, 1024, 512), (2, 1536, 768), (3, 2048, 1024), (4, 2560, 1280),
             (5, 3072, 1280), (6, 3584, 2048), (7, 4096, 2816), (8, 4608, 3584),
             (9, 5120, 4352)] ∧
    (drawFillTri 160 128 (screenTri ⟨0, 0⟩ ⟨5, 5⟩ ⟨20, 10⟩)).map
      (fun t => t.scanlines.all (fun s => decide (s.xLeft > s.xRight))) = .ok true := by
  refine ⟨?_, ?_, ?_, ?_, ?_⟩ <;> rfl

/-- C19 (no double cover of shared edges), evaluated on the code.  The
    triangles `(0,0)`, `(10,0)`, `(5,10)` and `(10,0)`, `(20,10)`, `(5,10)` share
    the edge from `(10,0)` to `(5,10)`; their runs have the pixels `(9,0)`, `(8,2)`,
    `(7,4)`, `(6,6)` and `(5,8)` in common. -/
theorem shared_edge_double_cover :
    (drawFillTri 160 128 flatTopTri).map (fun t => t.hlines.map runOf)
      = .ok [(0, 0, 10), (1, 1, 9), (2, 1, 9), (3, 2, 8), (4, 2, 8), (5, 3, 7), (6, 3, 7),
             (7, 4, 6), (8, 4, 6), (9, 5, 5)] ∧
    (drawFillTri 160 128 neighbourTri).map (fun t => t.hlines.map runOf)
      = .ok [(0, 9, 11), (1, 9, 12), (2, 8, 13), (3, 8, 14), (4, 7, 15), (5, 7, 16), (6, 6, 17),
             (7, 6, 18), (8, 5, 19), (9, 5, 20)] ∧
    doubleCover 160 128 flatTopTri neighbourTri
      = .ok [(9, 0), (8, 2), (7, 4), (6, 6), (5, 8)] := by
  refine ⟨?_, ?_, ?_⟩ <;> rfl

/-- C20 (on-canvas fills), evaluated on the code.  For the triangle `(0,0)`,
    `(3,5)`, `(0,10)`, which lies on the 160x128 canvas, the calls on rows 0 and 9
    are `m5_hline(0, y, -1, color)`: the right boundary is clamped to 0 and the
    second column argument is that value minus 1. -/
theorem hline_right_argument_negative :
    (drawFillTri 160 128 (screenTri ⟨0, 0⟩ ⟨3, 5⟩ ⟨0, 10⟩)).map
      (fun t => t.hlines.map (fun h => (h.x1, h.y, h.x2)))
      = .ok [(0, 0, -1), (0, 1, 0), (0, 2, 0), (0, 3, 1), (0, 4, 1), (0, 5, 2), (0, 6, 1),
             (0, 7, 0), (0, 8, 0), (0, 9, -1)] := by
  rfl

/-! ## The rasterizer: rows and divisors -/

theorem rowsFrom_mem (x : Int) : ∀ (count : Nat) (y : Int),
    x ∈ rowsFrom y count ↔ y ≤ x ∧ x < y + count := by
  intro count
  induction count with
  | zero => intro y; simp [rowsFrom]
  | succ n ih =>
    intro y
    simp only [rowsFrom, List.mem_cons, ih]
    push_cast
    omega

theorem rowsFrom_nodup : ∀ (count : Nat) (y : Int), (rowsFrom y count).Nodup := by
  intro count
  induction count with
  | zero => intro y; simp [rowsFrom]
  | succ n ih =>
    intro y
    simp only [rowsFrom, List.nodup_cons]
    refine ⟨?_, ih (y + 1)⟩
    rw [rowsFrom_mem]
    omega

theorem rowsFrom_append : ∀ (n m : Nat) (y : Int),
    rowsFrom y n ++ rowsFrom (y + n) m = rowsFrom y (n + m) := by
  intro n
  induction n with
  | zero => intro m y; simp [rowsFrom]
  | succ n ih =>
    intro m y
    have h := ih m (y + 1)
    have e : y + 1 + (n : Int) = y + ((n + 1 : Nat) : Int) := by push_cast; omega
    rw [e] at h
    simp only [rowsFrom, List.cons_append, h, Nat.succ_add]

theorem topLoop_rows (l r : FIXED) : ∀ (count : Nat) (y : Int) (xl xr : FIXED),
    (topLoop l r count y xl xr).1.map (fun s => s.y) = rowsFrom y count := by
  intro count
  induction count with
  | zero => intro y xl xr; rfl
  | succ n ih =>
    intro y xl xr
    simp only [topLoop, rowsFrom, List.map_cons, ih]

theorem bottomLoop_rows (l r : FIXED) : ∀ (count : Nat) (y : Int) (xl xr : FIXED),
    (bottomLoop l r count y xl xr).map (fun s => s.y) = rowsFrom y count := by
  intro count
  induction count with
  | zero => intro y xl xr; rfl
  | succ n ih =>
    intro y xl xr
    simp only [bottomLoop, rowsFrom, List.map_cons, ih]

theorem sortVerts_sorted (a b c : RasterPoint) :
    (sortVerts a b c).1.y ≤ (sortVerts a b c).2.1.y ∧
    (sortVerts a b c).2.1.y ≤ (sortVerts a b c).2.2.y := by
  unfold sortVerts
  dsimp only
  split_ifs <;> constructor <;> simp only [] at * <;> omega

theorem sortVerts_mem (a b c : RasterPoint) :
    (sortVerts a b c).1 ∈ [a, b, c] ∧ (sortVerts a b c).2.1 ∈ [a, b, c] ∧
    (sortVerts a b c).2.2 ∈ [a, b, c] := by
  unfold sortVerts
  dsimp only
  split_ifs <;> simp

theorem int2fx_ne_zero (d : Int) (h1 : -16777216 < d) (h2 : d < 16777216) (h0 : d ≠ 0) :
    int2fx d ≠ 0 := by
  intro h
  have h3 : (d * 256 + 2147483648) % 4294967296 - 2147483648 = 0 := h
  omega

theorem topShortDiv_ok (v1 v2 v3 : RasterPoint) (hne : v1.y ≠ v3.y) :
    topShortDiv v1 v2 v3 = .ok
      (if v2.y - v1.y ≠ 0 then (int2fx (v2.x - v1.x), int2fx (v2.y - v1.y))
       else (int2fx (v3.x - v2.x), int2fx (v3.y - v2.y))) := by
  unfold topShortDiv
  by_cases h : v2.y - v1.y ≠ 0
  · rw [if_pos h, if_pos h]
  · have h2 : v3.y - v2.y ≠ 0 := by omega
    rw [if_neg h, if_pos h2, if_neg h]

theorem drawFillTri_shape (W H : Int) (tri : RasterTriangle) (v1 v2 v3 : RasterPoint)
    (hvs : sortVerts tri.vert0 tri.vert1 tri.vert2 = (v1, v2, v3)) (hne : v1.y ≠ v3.y) :
    ∃ t, drawFillTri W H tri = .ok t ∧
      t.hlines = t.scanlines.map (hlineOf W tri.color) ∧
      t.divs = (int2fx (v3.x - v1.x), int2fx (v3.y - v1.y)) ::
        (if v2.y - v1.y ≠ 0 then (int2fx (v2.x - v1.x), int2fx (v2.y - v1.y))
         else (int2fx (v3.x - v2.x), int2fx (v3.y - v2.y))) ::
        (if v2.y < v3.y then [(int2fx (v3.x - v2.x), int2fx (v3.y - v2.y))] else []) ∧
      t.scanlines.map (fun s => s.y)
        = rowsFrom (max 0 v1.y) (min (H - 1) v2.y - max 0 v1.y).toNat ++
          (if v2.y < v3.y then rowsFrom (max 0 v2.y) (min (H - 1) v3.y - max 0 v2.y).toNat
           else []) := by
  unfold drawFillTri
  simp only [hvs, hne, if_false, topShortDiv_ok v1 v2 v3 hne]
  by_cases hb : v2.y < v3.y
  · simp only [hb, if_true]
    refine ⟨_, rfl, rfl, rfl, ?_⟩
    simp only [List.map_append, topLoop_rows, bottomLoop_rows]
  · simp only [hb, if_false]
    refine ⟨_, rfl, rfl, rfl, ?_⟩
    simp only [topLoop_rows, List.append_nil]

theorem hlines_rows (W : Int) (color : COLOR) (l : List Scanline) :
    (l.map (hlineOf W color)).map (fun h => h.y) = l.map (fun s => s.y) := by
  induction l with
  | nil => rfl
  | cons s rest ih => simp only [List.map_cons, ih, hlineOf]

theorem rowsFrom_join (a a2 : Int) (n m N : Nat)
    (h : (m = 0 ∧ n = N) ∨ (a2 = a + (n : Int) ∧ n + m = N)) :
    rowsFrom a n ++ rowsFrom a2 m = rowsFrom a N := by
  rcases h with ⟨hm, hn⟩ | ⟨ha, hn⟩
  · subst hm
    subst hn
    simp [rowsFrom]
  · subst ha
    subst hn
    exact rowsFrom_append n m a

/-- C22 (scanline rows): for every triangle whose y-sorted vertices `v1`, `v2`,
    `v3` have `v1.y != v3.y`, the fill succeeds and the rows of its `m5_hline`
    calls, top and bottom section together and in call order, are
    `max(0, v1.y), ..., min(M5_SCALED_H - 1, v3.y) - 1`: exactly the integers `y`
    with `max(0, v1.y) <= y < min(M5_SCALED_H - 1, v3.y)`, each once; row `v3.y`
    and row `M5_SCALED_H - 1` are never filled. -/
theorem scanline_rows (W H : Int) (tri : RasterTriangle) (v1 v2 v3 : RasterPoint)
    (hvs : sortVerts tri.vert0 tri.vert1 tri.vert2 = (v1, v2, v3)) (hne : v1.y ≠ v3.y) :
    v1.y ≤ v2.y ∧ v2.y ≤ v3.y ∧
    ∃ t, drawFillTri W H tri = .ok t ∧
      t.hlines.map (fun h => h.y)
        = rowsFrom (max 0 v1.y) (min (H - 1) v3.y - max 0 v1.y).toNat ∧
      (t.hlines.map (fun h => h.y)).Nodup ∧
      (∀ y, y ∈ t.hlines.map (fun h => h.y) ↔ max 0 v1.y ≤ y ∧ y < min (H - 1) v3.y) ∧
      v3.y ∉ t.hlines.map (fun h => h.y) ∧
      (H - 1) ∉ t.hlines.map (fun h => h.y) := by
  have hs := sortVerts_sorted tri.vert0 tri.vert1 tri.vert2
  rw [hvs] at hs
  have s1 : v1.y ≤ v2.y := hs.1
  have s2 : v2.y ≤ v3.y := hs.2
  obtain ⟨t, ht, hh, _, hrows⟩ := drawFillTri_shape W H tri v1 v2 v3 hvs hne
  have hy : t.hlines.map (fun h => h.y)
      = rowsFrom (max 0 v1.y) (min (H - 1) v3.y - max 0 v1.y).toNat := by
    rw [hh, hlines_rows, hrows]
    by_cases hb : v2.y < v3.y
    · rw [if_pos hb]
      apply rowsFrom_join
      omega
    · rw [if_neg hb, List.append_nil]
      have e : v2.y = v3.y := by omega
      rw [e]
  have hmem : ∀ y, y ∈ t.hlines.map (fun h => h.y) ↔
      max 0 v1.y ≤ y ∧ y < min (H - 1) v3.y := by
    intro y
    rw [hy, rowsFrom_mem]
    omega
  refine ⟨s1, s2, t, ht, hy, ?_, hmem, ?_, ?_⟩
  · rw [hy]
    exact rowsFrom_nodup _ _
  · rw [hmem]
    omega
  · rw [hmem]
    omega

/-- Witness of `scanline_rows`: the triangle `(0,0)`, `(10,0)`, `(5,10)` on the
    160x128 canvas is filled on the rows 0..9. -/
theorem scanline_rows_witness :
    (0 : Int) ≤ 0 ∧ (0 : Int) ≤ 10 ∧
    ∃ t, drawFillTri 160 128 flatTopTri = .ok t ∧
      t.hlines.map (fun h => h.y)
        = rowsFrom (max 0 (0 : Int)) (min ((128 : Int) - 1) 10 - max 0 (0 : Int)).toNat ∧
      (t.hlines.map (fun h => h.y)).Nodup ∧
      (∀ y, y ∈ t.hlines.map (fun h => h.y) ↔
        max 0 (0 : Int) ≤ y ∧ y < min ((128 : Int) - 1) 10) ∧
      (10 : Int) ∉ t.hlines.map (fun h => h.y) ∧
      ((128 : Int) - 1) ∉ t.hlines.map (fun h => h.y) :=
  scanline_rows 160 128 flatTopTri ⟨0, 0⟩ ⟨10, 0⟩ ⟨5, 10⟩ (by decide) (by decide)

/-- C21 (no division by zero): for every triangle whose screen y coordinates
    fit the fixed-point range (`-2^23 <= y < 2^23`), with `v1`, `v2`, `v3` its
    y-sorted vertices, the fill succeeds (no assertion fails) and every `fxdiv`
    executed has a non-zero divisor.  For a flat top (`v1.y = v2.y < v3.y`) the
    short-edge slope of the top section is taken from `v2 -> v3`; for a flat
    bottom (`v1.y < v2.y = v3.y`) only the long-edge and the `v1 -> v2` division
    are executed and only the rows of the top section, all above `v2.y`, are
    filled. -/
theorem no_division_by_zero (W H : Int) (tri : RasterTriangle) (v1 v2 v3 : RasterPoint)
    (hvs : sortVerts tri.vert0 tri.vert1 tri.vert2 = (v1, v2, v3))
    (hrange : ∀ v ∈ [tri.vert0, tri.vert1, tri.vert2], -8388608 ≤ v.y ∧ v.y < 8388608) :
    ∃ t, drawFillTri W H tri = .ok t ∧
      (∀ d ∈ t.divs, d.2 ≠ 0) ∧
      (v1.y = v2.y → v2.y < v3.y →
        t.divs = [(int2fx (v3.x - v1.x), int2fx (v3.y - v1.y)),
                  (int2fx (v3.x - v2.x), int2fx (v3.y - v2.y)),
                  (int2fx (v3.x - v2.x), int2fx (v3.y - v2.y))]) ∧
      (v1.y < v2.y → v2.y = v3.y →
        t.divs = [(int2fx (v3.x - v1.x), int2fx (v3.y - v1.y)),
                  (int2fx (v2.x - v1.x), int2fx (v2.y - v1.y))] ∧
        t.scanlines.map (fun s => s.y)
          = rowsFrom (max 0 v1.y) (min (H - 1) v2.y - max 0 v1.y).toNat ∧
        ∀ y ∈ t.scanlines.map (fun s => s.y), y < v2.y) := by
  have hs := sortVerts_sorted tri.vert0 tri.vert1 tri.vert2
  have hm := sortVerts_mem tri.vert0 tri.vert1 tri.vert2
  rw [hvs] at hs hm
  have s1 : v1.y ≤ v2.y := hs.1
  have s2 : v2.y ≤ v3.y := hs.2
  have r1 := hrange v1 hm.1
  have r2 := hrange v2 hm.2.1
  have r3 := hrange v3 hm.2.2
  by_cases hne : v1.y = v3.y
  · refine ⟨{ scanlines := [], hlines := [], divs := [] }, ?_, ?_, ?_, ?_⟩
    · unfold drawFillTri
      simp only [hvs, hne, if_true]
    · intro d hd
      cases hd
    · intro h1 h2
      omega
    · intro h1 h2
      omega
  · obtain ⟨t, ht, _, hdivs, hrows⟩ := drawFillTri_shape W H tri v1 v2 v3 hvs hne
    have hlong : int2fx (v3.y - v1.y) ≠ 0 :=
      int2fx_ne_zero _ (by omega) (by omega) (by omega)
    refine ⟨t, ht, ?_, ?_, ?_⟩
    · intro d hd
      rw [hdivs] at hd
      rcases List.mem_cons.mp hd with rfl | hd
      · exact hlong
      · rcases List.mem_cons.mp hd with rfl | hd
        · by_cases h21 : v2.y - v1.y ≠ 0
          · rw [if_pos h21]
            exact int2fx_ne_zero _ (by omega) (by omega) h21
          · rw [if_neg h21]
            exact int2fx_ne_zero _ (by omega) (by omega) (by omega)
        · by_cases hb : v2.y < v3.y
          · rw [if_pos hb] at hd
            rcases List.mem_cons.mp hd with rfl | hd
            · exact int2fx_ne_zero _ (by omega) (by omega) (by omega)
            · cases hd
          · rw [if_neg hb] at hd
            cases hd
    · intro h1 h2
      have h21 : ¬ v2.y - v1.y ≠ 0 := by omega
      rw [hdivs, if_neg h21, if_pos h2]
    · intro h1 h2
      have h21 : v2.y - v1.y ≠ 0 := by omega
      have hb : ¬ v2.y < v3.y := by omega
      rw [if_neg hb, List.append_nil] at hrows
      refine ⟨by rw [hdivs, if_pos h21, if_neg hb], hrows, ?_⟩
      intro y hy
      rw [hrows, rowsFrom_mem] at hy
      omega

/-- Witness of `no_division_by_zero` on the 160x128 canvas: the flat-top
    triangle `(0,0)`, `(10,0)`, `(5,10)` executes three divisions, the short-edge
    ones with the arguments of `v2 -> v3`; the flat-bottom triangle `(10,0)`,
    `(20,10)`, `(5,10)` executes two and fills rows above 10 only. -/
theorem no_division_by_zero_witness :
    (∃ t, drawFillTri 160 128 flatTopTri = .ok t ∧ (∀ d ∈ t.divs, d.2 ≠ 0) ∧
      t.divs = [(1280, 2560), (-1280, 2560), (-1280, 2560)]) ∧
    (∃ t, drawFillTri 160 128 neighbourTri = .ok t ∧ (∀ d ∈ t.divs, d.2 ≠ 0) ∧
      t.divs = [(-1280, 2560), (2560, 2560)] ∧
      ∀ y ∈ t.scanlines.map (fun s => s.y), y < (10 : Int)) :=
  ⟨match no_division_by_zero 160 128 flatTopTri ⟨0, 0⟩ ⟨10, 0⟩ ⟨5, 10⟩
      (by decide) (by decide) with
    | ⟨t, ht, hd, hflat, _⟩ => ⟨t, ht, hd, hflat rfl (by decide)⟩,
   match no_division_by_zero 160 128 neighbourTri ⟨10, 0⟩ ⟨20, 10⟩ ⟨5, 10⟩
      (by decide) (by decide) with
    | ⟨t, ht, hd, _, hbottom⟩ =>
      ⟨t, ht, hd, (hbottom (by decide) rfl).1, (hbottom (by decide) rfl).2.2⟩⟩

/-! ## The depth comparator -/

theorem wrap32_zero_iff (x y : Int) (hx1 : -2147483648 ≤ x) (hx2 : x ≤ 2147483647)
    (hy1 : -2147483648 ≤ y) (hy2 : y ≤ 2147483647) : wrap32 (x - y) = 0 ↔ x = y := by
  unfold wrap32
  omega

theorem wrap32_sign (x y : Int) (h1 : -2147483647 ≤ x - y) (h2 : x - y ≤ 2147483647) :
    (wrap32 (x - y) < 0 ↔ x < y) ∧ (wrap32 (x - y) > 0 ↔ x > y) ∧
    (wrap32 (x - y) < 0 ↔ wrap32 (y - x) > 0) := by
  unfold wrap32
  omega

theorem wrap32_trans (x y z : Int) (hxy1 : -2147483647 ≤ x - y) (hxy2 : x - y ≤ 2147483647)
    (hyz1 : -2147483647 ≤ y - z) (hyz2 : y - z ≤ 2147483647)
    (hxz1 : -2147483647 ≤ x - z) (hxz2 : x - z ≤ 2147483647) :
    wrap32 (x - y) ≤ 0 → wrap32 (y - z) ≤ 0 → wrap32 (x - z) ≤ 0 := by
  unfold wrap32
  omega

/-- C23 as stated fails: for the signed 32-bit depths `2147483647` and `-2` the
    difference wraps and `triangleDepthCmp` is negative although the first depth
    is the greater; with the third depth `0` the results are not transitive
    either (first <= second, second <= third, yet first > third). -/
theorem depth_cmp_wraps :
    triangleDepthCmp (depthTri 2147483647) (depthTri (-2)) = -2147483647 ∧
    (depthTri 2147483647).centroidZ > (depthTri (-2)).centroidZ ∧
    triangleDepthCmp (depthTri (-2)) (depthTri 0) = -2 ∧
    triangleDepthCmp (depthTri 2147483647) (depthTri 0) = 2147483647 := by
  refine ⟨?_, ?_, ?_, ?_⟩ <;> decide

/-- C23 amended (comparator correctness): for signed 32-bit `centroidZ` values,
    `triangleDepthCmp(a, b)` is zero exactly when the depths are equal; and
    whenever the two depths differ by less than `2^31` (for instance any two
    depths in `-2147483647 .. 0`) it is negative exactly when
    `a.centroidZ < b.centroidZ`, positive exactly when `a.centroidZ > b.centroidZ`,
    and antisymmetric; it is transitive on three depths that pairwise differ by
    less than `2^31`. -/
theorem depth_cmp_correct (a b c : RasterTriangle)
    (ha : -2147483648 ≤ a.centroidZ ∧ a.centroidZ ≤ 2147483647)
    (hb : -2147483648 ≤ b.centroidZ ∧ b.centroidZ ≤ 2147483647) :
    (triangleDepthCmp a b = 0 ↔ a.centroidZ = b.centroidZ) ∧
    (-2147483647 ≤ a.centroidZ - b.centroidZ ∧ a.centroidZ - b.centroidZ ≤ 2147483647 →
      (triangleDepthCmp a b < 0 ↔ a.centroidZ < b.centroidZ) ∧
      (triangleDepthCmp a b > 0 ↔ a.centroidZ > b.centroidZ) ∧
      (triangleDepthCmp a b < 0 ↔ triangleDepthCmp b a > 0)) ∧
    (-2147483647 ≤ a.centroidZ ∧ a.centroidZ ≤ 0 ∧
      -2147483647 ≤ b.centroidZ ∧ b.centroidZ ≤ 0 →
      (triangleDepthCmp a b < 0 ↔ a.centroidZ < b.centroidZ) ∧
      (triangleDepthCmp a b > 0 ↔ a.centroidZ > b.centroidZ)) ∧
    (-2147483647 ≤ a.centroidZ - b.centroidZ ∧ a.centroidZ - b.centroidZ ≤ 2147483647 →
      -2147483647 ≤ b.centroidZ - c.centroidZ ∧ b.centroidZ - c.centroidZ ≤ 2147483647 →
      -2147483647 ≤ a.centroidZ - c.centroidZ ∧ a.centroidZ - c.centroidZ ≤ 2147483647 →
      triangleDepthCmp a b ≤ 0 → triangleDepthCmp b c ≤ 0 → triangleDepthCmp a c ≤ 0) := by
  refine ⟨wrap32_zero_iff _ _ ha.1 ha.2 hb.1 hb.2, ?_, ?_, ?_⟩
  · intro h
    exact wrap32_sign _ _ h.1 h.2
  · intro h
    have h1 : -2147483647 ≤ (a.centroidZ : Int) - b.centroidZ := by
      have := h.1; have := h.2.2.2; linarith
    have h2 : (a.centroidZ : Int) - b.centroidZ ≤ 2147483647 := by
      have := h.2.1; have := h.2.2.1; linarith
    exact ⟨(wrap32_sign _ _ h1 h2).1, (wrap32_sign _ _ h1 h2).2.1⟩
  · intro hab hbc hac
    exact wrap32_trans _ _ _ hab.1 hab.2 hbc.1 hbc.2 hac.1 hac.2

/-- Witness of `depth_cmp_correct`: the depths -512, -2048 and -1024. -/
theorem depth_cmp_correct_witness :
    (triangleDepthCmp (depthTri (-512)) (depthTri (-2048)) = 0 ↔
      (depthTri (-512)).centroidZ = (depthTri (-2048)).centroidZ) ∧
    ((triangleDepthCmp (depthTri (-512)) (depthTri (-2048)) < 0 ↔
        (depthTri (-512)).centroidZ < (depthTri (-2048)).centroidZ) ∧
      (triangleDepthCmp (depthTri (-512)) (depthTri (-2048)) > 0 ↔
        (depthTri (-512)).centroidZ > (depthTri (-2048)).centroidZ) ∧
      (triangleDepthCmp (depthTri (-512)) (depthTri (-2048)) < 0 ↔
        triangleDepthCmp (depthTri (-2048)) (depthTri (-512)) > 0)) ∧
    (triangleDepthCmp (depthTri (-2048)) (depthTri (-1024)) ≤ 0 →
      triangleDepthCmp (depthTri (-1024)) (depthTri (-512)) ≤ 0 →
      triangleDepthCmp (depthTri (-2048)) (depthTri (-512)) ≤ 0) :=
  ⟨(depth_cmp_correct (depthTri (-512)) (depthTri (-2048)) (depthTri (-1024))
      (by decide) (by decide)).1,
   (depth_cmp_correct (depthTri (-512)) (depthTri (-2048)) (depthTri (-1024))
      (by decide) (by decide)).2.1 (by decide),
   (depth_cmp_correct (depthTri (-2048)) (depthTri (-1024)) (depthTri (-512))
      (by decide) (by decide)).2.2.2 (by decide) (by decide) (by decide)⟩

/-! ## Backface culling with the fixed-point kernel -/

theorem fxmul_div (u v : Int) (h1 : -2147483648 ≤ u * v) (h2 : u * v ≤ 2147483647) :
    fxmul u v = u * v / 256 := by
  show wrap32 (u * v) >>> (8 : Nat) = u * v / 256
  rw [wrap32_of_range (u * v) h1 h2, Int.shiftRight_eq_div_pow]
  norm_num

theorem fxmul_range (u v : Int) :
    (-8388608 : Int) ≤ fxmul u v ∧ (8388608 : Int) > fxmul u v := by
  show (-8388608 : Int) ≤ wrap32 (u * v) >>> (8 : Nat) ∧
    (8388608 : Int) > wrap32 (u * v) >>> (8 : Nat)
  rw [Int.shiftRight_eq_div_pow]
  unfold wrap32
  generalize u * v = p
  norm_num
  omega

theorem fxmul_comm (u v : Int) : fxmul u v = fxmul v u := by
  unfold fxmul
  rw [mul_comm]

theorem cross_component_swap (s t u v : Int) :
    wrap32 (fxmul u t - fxmul v s) = - wrap32 (fxmul s v - fxmul t u) := by
  rw [fxmul_comm u t, fxmul_comm v s]
  have h1 := fxmul_range s v
  have h2 := fxmul_range t u
  rw [wrap32_of_range (fxmul t u - fxmul s v) (by omega) (by omega),
    wrap32_of_range (fxmul s v - fxmul t u) (by omega) (by omega)]
  omega

theorem dot_term (n x : Int) (h : -2147483648 < n * x ∧ n * x < 2147483648) :
    (-1 : Int) - fxmul n x ≤ fxmul (-n) x := by
  have e : -n * x = -(n * x) := neg_mul n x
  rw [fxmul_div n x (by omega) (by omega),
    fxmul_div (-n) x (by rw [e]; omega) (by rw [e]; omega), e]
  generalize n * x = p
  omega

theorem vecCross_swap (a b : Vec3) :
    fixedKernel.vecCross b a
      = ⟨-(fixedKernel.vecCross a b).x, -(fixedKernel.vecCross a b).y,
          -(fixedKernel.vecCross a b).z⟩ := by
  show (⟨wrap32 (fxmul b.y a.z - fxmul b.z a.y), wrap32 (fxmul b.z a.x - fxmul b.x a.z),
      wrap32 (fxmul b.x a.y - fxmul b.y a.x)⟩ : Vec3)
    = ⟨-wrap32 (fxmul a.y b.z - fxmul a.z b.y), -wrap32 (fxmul a.z b.x - fxmul a.x b.z),
        -wrap32 (fxmul a.x b.y - fxmul a.y b.x)⟩
  rw [cross_component_swap a.y a.z b.y b.z, cross_component_swap a.z a.x b.z b.x,
    cross_component_swap a.x a.y b.x b.y]

theorem vecDot_neg (nx ny nz x y z : Int)
    (hx : -2147483648 < nx * x ∧ nx * x < 2147483648)
    (hy : -2147483648 < ny * y ∧ ny * y < 2147483648)
    (hz : -2147483648 < nz * z ∧ nz * z < 2147483648) :
    - wrap32 (fxmul nx x + fxmul ny y + fxmul nz z) - 3
      ≤ wrap32 (fxmul (-nx) x + fxmul (-ny) y + fxmul (-nz) z) := by
  have t1 := dot_term nx x hx
  have t2 := dot_term ny y hy
  have t3 := dot_term nz z hz
  have r1 := fxmul_range nx x
  have r2 := fxmul_range ny y
  have r3 := fxmul_range nz z
  have q1 := fxmul_range (-nx) x
  have q2 := fxmul_range (-ny) y
  have q3 := fxmul_range (-nz) z
  rw [wrap32_of_range (fxmul nx x + fxmul ny y + fxmul nz z) (by omega) (by omega),
    wrap32_of_range (fxmul (-nx) x + fxmul (-ny) y + fxmul (-nz) z) (by omega) (by omega)]
  omega

theorem reversed_dot (v0 v1 v2 : Vec3)
    (h : DotInRange
      (fixedKernel.vecCross (fixedKernel.vecSub v1 v0) (fixedKernel.vecSub v2 v0)) v0) :
    - fixedKernel.vecDot
        (fixedKernel.vecCross (fixedKernel.vecSub v1 v0) (fixedKernel.vecSub v2 v0)) v0 - 3
      ≤ fixedKernel.vecDot
        (fixedKernel.vecCross (fixedKernel.vecSub v2 v0) (fixedKernel.vecSub v1 v0)) v0 := by
  rw [vecCross_swap (fixedKernel.vecSub v1 v0) (fixedKernel.vecSub v2 v0)]
  exact vecDot_neg _ _ _ v0.x v0.y v0.z h.1 h.2.1 h.2.2

theorem offCanvas_swap (cam : Camera) (p0 p1 p2 : Vec3) :
    offCanvas cam p0 p2 p1 = offCanvas cam p0 p1 p2 := by
  unfold offCanvas
  rw [Bool.and_right_comm (decide (p0.x < 0)),
    Bool.and_right_comm (decide (p0.x ≥ cam.canvasWidth)),
    Bool.and_right_comm (decide (p0.y < 0)),
    Bool.and_right_comm (decide (p0.y ≥ cam.canvasHeight))]

theorem full_buffer_halts (buf : List RasterTriangle)
    (h : buf.length = DRAW_MAX_TRIANGLES) :
    processFace fixedKernel sampleCamera sampleLight identityMat visibleVerts sampleFace buf
      = .error bufferFullMsg := by
  rw [processFace_eq fixedKernel sampleCamera sampleLight identityMat visibleVerts sampleFace buf
      ⟨256, 256, -512⟩ ⟨256, 512, -512⟩ ⟨512, 256, -512⟩ rfl rfl rfl,
    processTri_store fixedKernel sampleCamera sampleLight identityMat _ _ _ sampleFace buf
      (le_of_eq h)]
  have hs : survives fixedKernel sampleCamera ⟨256, 256, -512⟩ ⟨256, 512, -512⟩
      ⟨512, 256, -512⟩ = true := rfl
  rw [hs, if_pos rfl]
  apply store_full
  rw [List.length_append, h]
  simp

/-- C8 as stated fails.  With the fixed-point kernel, for each of the triangles
    `edgeOnVerts` (`vecDot(n, v0) = -1`), `edgeOnVerts3` (`vecDot(n, v0) = -3`)
    and `overflowVerts` (`n.x * v0.x = 2^31`, `vecDot(n, v0) = -8388608`) the
    dot product is negative, the triangle lies within the near/far range and is
    not off-canvas, yet the reversed winding has a dot product `<= 0` as well
    (`0`, `0` and `-8388608`) and emits no triangle.  And `visibleVerts` in the
    order 0, 2, 1 (`vecDot(n, v0) = -512`) has a reversed winding that passes
    every test, but with 256 triangles already stored the capacity assertion
    halts instead of emitting it. -/
theorem reversed_winding_also_culled :
    (fixedKernel.vecDot
        (fixedKernel.vecCross
          (fixedKernel.vecSub ⟨672, 640, -1088⟩ ⟨448, 1600, -1248⟩)
          (fixedKernel.vecSub ⟨1952, 224, -2432⟩ ⟨448, 1600, -1248⟩))
        ⟨448, 1600, -1248⟩ = -1 ∧
      fixedKernel.vecDot
        (fixedKernel.vecCross
          (fixedKernel.vecSub ⟨1952, 224, -2432⟩ ⟨448, 1600, -1248⟩)
          (fixedKernel.vecSub ⟨672, 640, -1088⟩ ⟨448, 1600, -1248⟩))
        ⟨448, 1600, -1248⟩ = 0 ∧
      (edgeOnVerts.all fun v =>
        decide (neg32 sampleCamera.far ≤ v.z) && decide (v.z ≤ neg32 sampleCamera.near)) = true ∧
      offCanvas sampleCamera (fixedKernel.vecTransform sampleCamera.perspMat ⟨448, 1600, -1248⟩)
        (fixedKernel.vecTransform sampleCamera.perspMat ⟨672, 640, -1088⟩)
        (fixedKernel.vecTransform sampleCamera.perspMat ⟨1952, 224, -2432⟩) = false ∧
      processFace fixedKernel sampleCamera sampleLight identityMat edgeOnVerts sampleFace []
        = .ok [] ∧
      processFace fixedKernel sampleCamera sampleLight identityMat edgeOnVerts
        (reverseWinding sampleFace) [] = .ok []) ∧
    (fixedKernel.vecDot
        (fixedKernel.vecCross
          (fixedKernel.vecSub ⟨864, 1088, -1472⟩ ⟨800, 224, -2080⟩)
          (fixedKernel.vecSub ⟨1216, 928, -2624⟩ ⟨800, 224, -2080⟩))
        ⟨800, 224, -2080⟩ = -3 ∧
      fixedKernel.vecDot
        (fixedKernel.vecCross
          (fixedKernel.vecSub ⟨1216, 928, -2624⟩ ⟨800, 224, -2080⟩)
          (fixedKernel.vecSub ⟨864, 1088, -1472⟩ ⟨800, 224, -2080⟩))
        ⟨800, 224, -2080⟩ = 0 ∧
      (edgeOnVerts3.all fun v =>
        decide (neg32 sampleCamera.far ≤ v.z) && decide (v.z ≤ neg32 sampleCamera.near)) = true ∧
      offCanvas sampleCamera (fixedKernel.vecTransform sampleCamera.perspMat ⟨800, 224, -2080⟩)
        (fixedKernel.vecTransform sampleCamera.perspMat ⟨864, 1088, -1472⟩)
        (fixedKernel.vecTransform sampleCamera.perspMat ⟨1216, 928, -2624⟩) = false ∧
      processFace fixedKernel sampleCamera sampleLight identityMat edgeOnVerts3 sampleFace []
        = .ok [] ∧
      processFace fixedKernel sampleCamera sampleLight identityMat edgeOnVerts3
        (reverseWinding sampleFace) [] = .ok []) ∧
    (fixedKernel.vecCross
        (fixedKernel.vecSub ⟨32768, 4352, -8192⟩ ⟨32768, 256, -8192⟩)
        (fixedKernel.vecSub ⟨32768, 256, -4096⟩ ⟨32768, 256, -8192⟩) = ⟨65536, 0, 0⟩ ∧
      fixedKernel.vecDot ⟨65536, 0, 0⟩ ⟨32768, 256, -8192⟩ = -8388608 ∧
      fixedKernel.vecDot
        (fixedKernel.vecCross
          (fixedKernel.vecSub ⟨32768, 256, -4096⟩ ⟨32768, 256, -8192⟩)
          (fixedKernel.vecSub ⟨32768, 4352, -8192⟩ ⟨32768, 256, -8192⟩))
        ⟨32768, 256, -8192⟩ = -8388608 ∧
      (overflowVerts.all fun v =>
        decide (neg32 sampleCamera.far ≤ v.z) && decide (v.z ≤ neg32 sampleCamera.near)) = true ∧
      offCanvas sampleCamera (fixedKernel.vecTransform sampleCamera.perspMat ⟨32768, 256, -8192⟩)
        (fixedKernel.vecTransform sampleCamera.perspMat ⟨32768, 4352, -8192⟩)
        (fixedKernel.vecTransform sampleCamera.perspMat ⟨32768, 256, -4096⟩) = false ∧
      processFace fixedKernel sampleCamera sampleLight identityMat overflowVerts sampleFace []
        = .ok [] ∧
      processFace fixedKernel sampleCamera sampleLight identityMat overflowVerts
        (reverseWinding sampleFace) [] = .ok []) ∧
    (fixedKernel.vecDot
        (fixedKernel.vecCross
          (fixedKernel.vecSub ⟨512, 256, -512⟩ ⟨256, 256, -512⟩)
          (fixedKernel.vecSub ⟨256, 512, -512⟩ ⟨256, 256, -512⟩))
        ⟨256, 256, -512⟩ = -512 ∧
      processFace fixedKernel sampleCamera sampleLight identityMat visibleVerts
        (reverseWinding sampleFace) (List.replicate DRAW_MAX_TRIANGLES crowdedTriangle)
        = .ok (List.replicate DRAW_MAX_TRIANGLES crowdedTriangle) ∧
      processFace fixedKernel sampleCamera sampleLight identityMat visibleVerts
        (reverseWinding (reverseWinding sampleFace))
        (List.replicate DRAW_MAX_TRIANGLES crowdedTriangle)
        = .error "draw.c: drawModelInstances: screenTriangleCount < DRAW_MAX_TRIANGLES") := by
  refine ⟨⟨rfl, rfl, rfl, rfl, rfl, rfl⟩, ⟨rfl, rfl, rfl, rfl, rfl, rfl⟩,
    ⟨rfl, rfl, rfl, rfl, rfl, rfl, rfl⟩, ⟨rfl, ?_, ?_⟩⟩
  · rw [processFace_eq fixedKernel sampleCamera sampleLight identityMat visibleVerts
      (reverseWinding sampleFace) _ ⟨256, 256, -512⟩ ⟨512, 256, -512⟩ ⟨256, 512, -512⟩
      rfl rfl rfl]
    exact processTri_culled fixedKernel sampleCamera sampleLight identityMat _ _ _ _ _
      (by decide)
  · exact full_buffer_halts _ (List.length_replicate _ _)

/-- C8 amended (backface culling).  For a face with camera-space vertices `v0`,
    `v1`, `v2` and `n = vecCross(v1 - v0, v2 - v0)`: if `vecDot(n, v0) <= 0` the
    face emits zero triangles (for every choice of the math helpers); and, with
    the fixed-point kernel, for a triangle with `vecDot(n, v0) < -3` (the three
    products of the dot product are each rounded down, which costs the reversed
    winding up to three units) whose products `n.x * v0.x`, `n.y * v0.y`,
    `n.z * v0.z` lie strictly inside the 32-bit range, that lies within the
    near/far range and is not off-canvas, the same triangle with reversed
    winding emits exactly one triangle (the buffer having room). -/
theorem backface_culling (K : MathKernel) (cam : Camera) (lightDir : Vec3)
    (rot : List FIXED) (verts : List Vec3) (face : Face) (buf : List RasterTriangle)
    (v0 v1 v2 : Vec3) (h0 : verts[face.vertexIndex0]? = some v0)
    (h1 : verts[face.vertexIndex1]? = some v1) (h2 : verts[face.vertexIndex2]? = some v2) :
    (K.vecDot (K.vecCross (K.vecSub v1 v0) (K.vecSub v2 v0)) v0 ≤ 0 →
      processFace K cam lightDir rot verts face buf = .ok buf) ∧
    (fixedKernel.vecDot
        (fixedKernel.vecCross (fixedKernel.vecSub v1 v0) (fixedKernel.vecSub v2 v0)) v0 < -3 →
      DotInRange
        (fixedKernel.vecCross (fixedKernel.vecSub v1 v0) (fixedKernel.vecSub v2 v0)) v0 →
      (∀ v ∈ [v0, v1, v2], neg32 cam.far ≤ v.z ∧ v.z ≤ neg32 cam.near) →
      offCanvas cam (fixedKernel.vecTransform cam.perspMat v0)
        (fixedKernel.vecTransform cam.perspMat v1)
        (fixedKernel.vecTransform cam.perspMat v2) = false →
      buf.length < DRAW_MAX_TRIANGLES →
      processFace fixedKernel cam lightDir rot verts face buf = .ok buf ∧
      processFace fixedKernel cam lightDir rot verts (reverseWinding face) buf
        = .ok (buf ++ [emittedTriangle fixedKernel cam lightDir rot v0 v2 v1
            (reverseWinding face)])) := by
  constructor
  · intro h
    rw [processFace_eq K cam lightDir rot verts face buf v0 v1 v2 h0 h1 h2]
    exact processTri_culled K cam lightDir rot v0 v1 v2 face buf h
  · intro hneg hrange hz hcanvas hroom
    have hrev := reversed_dot v0 v1 v2 hrange
    have hpos : fixedKernel.vecDot
        (fixedKernel.vecCross (fixedKernel.vecSub v2 v0) (fixedKernel.vecSub v1 v0)) v0 > 0 := by
      linarith
    constructor
    · rw [processFace_eq fixedKernel cam lightDir rot verts face buf v0 v1 v2 h0 h1 h2]
      exact processTri_culled fixedKernel cam lightDir rot v0 v1 v2 face buf (by linarith)
    · rw [processFace_eq fixedKernel cam lightDir rot verts (reverseWinding face) buf v0 v2 v1
        h0 h2 h1]
      have z0 := hz v0 (by simp)
      have z1 := hz v1 (by simp)
      have z2 := hz v2 (by simp)
      have hc : offCanvas cam (fixedKernel.vecTransform cam.perspMat v0)
          (fixedKernel.vecTransform cam.perspMat v2)
          (fixedKernel.vecTransform cam.perspMat v1) = false := by
        rw [offCanvas_swap]; exact hcanvas
      refine processTri_emitted fixedKernel cam lightDir rot v0 v2 v1 (reverseWinding face) buf
        hpos ⟨z0.2, z2.2, z1.2⟩ ?_ hc hroom
      simp only [farReject, Bool.or_eq_false_iff, decide_eq_false_iff_not, not_lt]
      exact ⟨⟨z0.1, z2.1⟩, z2.1⟩

/-- Witness of `backface_culling`: `visibleVerts` taken in the order 0, 2, 1 has
    `n = (0, 0, 1.0)` and `vecDot(n, v0) = -512`; it is culled, and with the
    winding reversed it is emitted. -/
theorem backface_culling_witness :
    processFace fixedKernel sampleCamera sampleLight identityMat visibleVerts
      (reverseWinding sampleFace) [] = .ok [] ∧
    (processFace fixedKernel sampleCamera sampleLight identityMat visibleVerts
        (reverseWinding sampleFace) [] = .ok [] ∧
      processFace fixedKernel sampleCamera sampleLight identityMat visibleVerts
        (reverseWinding (reverseWinding sampleFace)) []
        = .ok ([] ++ [emittedTriangle fixedKernel sampleCamera sampleLight identityMat
            ⟨256, 256, -512⟩ ⟨256, 512, -512⟩ ⟨512, 256, -512⟩
            (reverseWinding (reverseWinding sampleFace))])) :=
  ⟨(backface_culling fixedKernel sampleCamera sampleLight identityMat visibleVerts
      (reverseWinding sampleFace) [] ⟨256, 256, -512⟩ ⟨512, 256, -512⟩ ⟨256, 512, -512⟩
      rfl rfl rfl).1 (by decide),
   (backface_culling fixedKernel sampleCamera sampleLight identityMat visibleVerts
      (reverseWinding sampleFace) [] ⟨256, 256, -512⟩ ⟨512, 256, -512⟩ ⟨256, 512, -512⟩
      rfl rfl rfl).2 (by decide) (by unfold DotInRange; decide) (by decide) rfl (by decide)⟩

end GeBurtstAg
